import Mathlib

/-!
# Verification of the TowerDefense combat-simulation core

A shallow embedding of the combat simulation and wave-progression engine of
`newProject.cpp` (repository Abdullah57-web/TowerDefense-Project).

Modelling conventions, justified against the source:

* Every entity in the simulation lives on the lane `y = LANE_Y`: units spawn at
  `(150, LANE_Y)` or `(SCREEN_WIDTH - 150, LANE_Y)`, every waypoint generated by
  `Unit::generatePath` has `y = LANE_Y`, movement in `Unit::FollowPath` therefore
  has a zero `y` component, and both towers sit at `y = LANE_Y`.  Positions are
  consequently modelled by their 1-D `x` coordinate, and the Euclidean distance
  `sqrt((ax-bx)^2 + (ay-by)^2)` of `CalculateDistance` reduces to `|ax - bx|`,
  which is exact over `ℚ`.
* C++ `float` quantities (timers, speeds, positions) are modelled by `ℚ`; `int`
  quantities (health, damage, elixir) by `Int`.
* C++ raw `Unit*` references (a unit's `target`, the entries of a tower's
  `targetQueue`) are modelled by unit identifiers (`Nat`).  The simulation state
  carries a `nextId` counter so that spawned units always receive fresh ids;
  ids never occur in the C++ source and are a modelling device only.
* `std::sort` with the targeting comparator and `std::priority_queue` with
  `TowerTargetPriority` are modelled by insertion sort with the corresponding
  "comes before" test (for the priority queue, best-first; its comparator is
  the exact mirror of the unit one).  The comparator is not a strict weak
  ordering (the 10-unit epsilon band is not transitive), in which case the C++
  behaviour is unspecified; insertion sort is one faithful instantiation of
  "sort, then take the front element".
-/

namespace TD

/-- Game states (`enum class GameState`). -/
inductive GameState where
  | START_SCREEN
  | PLAYING
  | GAME_OVER
deriving DecidableEq, Repr

/-- Unit types (`enum class UnitType`). -/
inductive UnitType where
  | KNIGHT
  | ARCHER
  | GIANT
  | WIZARD
deriving DecidableEq, Repr

/-- Unit stats (`struct UnitStats`); the `Color` and `size` fields are purely
visual and are omitted. -/
structure UnitStats where
  cost : Int
  hp : Int
  damage : Int
  speed : ℚ
  attackRate : ℚ
  range : ℚ
  isRanged : Bool
deriving DecidableEq, Repr

/-- The stats table (`Unit::getUnitStats` / `Game::GetUnitStats`, two identical
copies in the source). -/
def getUnitStats : UnitType → UnitStats
  | .KNIGHT => { cost := 3, hp := 300,  damage := 60, speed := 80, attackRate := 6/5, range := 40,  isRanged := false }
  | .ARCHER => { cost := 3, hp := 150,  damage := 40, speed := 60, attackRate := 3/2, range := 150, isRanged := true }
  | .GIANT  => { cost := 5, hp := 1000, damage := 80, speed := 40, attackRate := 2,   range := 50,  isRanged := false }
  | .WIZARD => { cost := 4, hp := 180,  damage := 70, speed := 50, attackRate := 5/2, range := 120, isRanged := true }

-- Game constants from the top of the source file.
def SCREEN_WIDTH : ℚ := 1200
def TOWER_HP : Int := 3500
def TOWER_DAMAGE : Int := 50
def TOWER_ATTACK_RATE : ℚ := 1
def TOWER_RANGE : ℚ := 300

/-- C `fabs`, written out so that it evaluates by kernel reduction
(Mathlib's `|·|` on `ℚ` goes through order-class fields that do not reduce). -/
def fabs (x : ℚ) : ℚ := if x < 0 then -x else x

/-- C++ `std::max(a, b)` (`b` when `a < b`, else `a`), written out so that it
evaluates by kernel reduction. -/
def fmax (a b : ℚ) : ℚ := if a < b then b else a

/-- `Unit::CalculateDistance` / `Tower::CalculateDistance`:
`sqrt((a.x-b.x)^2 + (a.y-b.y)^2)`, which on the lane (`ay = by`) is `|ax - bx|`. -/
def CalculateDistance (a b : ℚ) : ℚ := fabs (a - b)

theorem fabs_eq_abs (x : ℚ) : fabs x = |x| := by
  by_cases h : x < 0 <;> simp [fabs, h, abs_of_neg, abs_of_nonneg, not_lt.mp]

theorem fmax_eq_max (a b : ℚ) : fmax a b = max a b := by
  by_cases h : a < b
  · simp [fmax, h, max_eq_right h.le]
  · simp [fmax, h, max_eq_left (not_lt.mp h)]

/-- A unit (`class Unit`).  `target` is the id of the targeted unit (C++ raw
pointer); `path` is the list of remaining waypoint x-coordinates. -/
structure GUnit where
  id : Nat
  type : UnitType
  position : ℚ
  currentHP : Int
  maxHP : Int
  damage : Int
  speed : ℚ
  attackRate : ℚ
  attackRange : ℚ
  isRanged : Bool
  attackTimer : ℚ
  isPlayer : Bool
  isAlive : Bool
  target : Option Nat
  isFrozen : Bool
  freezeTimer : ℚ
  path : List ℚ
  currentTargetPos : ℚ
deriving DecidableEq, Repr

/-- `Unit::generatePath`: waypoints every 50 units from the spawn position,
up to (exclusive) `SCREEN_WIDTH - 50 = 1150` for player units, down to
(exclusive) `50` for enemy units.  The constructor only calls it from the fixed
spawn positions `150` (player) and `1050` (enemy), where both loops produce
exactly 20 waypoints (`150, 200, ..., 1100` resp. `1050, 1000, ..., 100`). -/
def generatePath (isPlayer : Bool) : List ℚ :=
  if isPlayer then (List.range 20).map (fun k => 150 + 50 * (k : ℚ))
  else (List.range 20).map (fun k => 1050 - 50 * (k : ℚ))

/-- The `Unit` constructor (`Unit::Unit`).  `currentTargetPos` is first set to
the opposing tower position and then overwritten by `generatePath` with the
first waypoint (the path is never empty here). -/
def mkUnit (id : Nat) (unitType : UnitType) (player : Bool) : GUnit :=
  let stats := getUnitStats unitType
  let path := generatePath player
  { id := id
    type := unitType
    position := if player then 150 else 1050
    currentHP := stats.hp
    maxHP := stats.hp
    damage := stats.damage
    speed := stats.speed
    attackRate := stats.attackRate
    attackRange := stats.range
    isRanged := stats.isRanged
    attackTimer := 0
    isPlayer := player
    isAlive := true
    target := none
    isFrozen := false
    freezeTimer := 0
    path := path
    currentTargetPos := path.headD (if player then SCREEN_WIDTH - 50 else 50) }

theorem mkUnit_id (id : Nat) (ty : UnitType) (pl : Bool) : (mkUnit id ty pl).id = id := rfl

/-- The targeting comparator, as a "comes before" test on `(unit, distance)`
pairs.  This is the lambda inside `Unit::FindTargetWithPriority`; the tower's
`TowerTargetPriority` is the exact mirror (it answers "comes after"), so the
best-first order of both is generated by this single test. -/
def targetCmp (a b : GUnit × ℚ) : Bool :=
  if fabs (a.2 - b.2) < 10 then a.1.currentHP < b.1.currentHP
  else a.2 < b.2

/-- Insert into a sorted list (auxiliary for `sortByCmp`). -/
def insertSorted (cmp : α → α → Bool) (x : α) : List α → List α
  | [] => [x]
  | y :: ys => if cmp x y then x :: y :: ys else y :: insertSorted cmp x ys

/-- Insertion sort; models `std::sort` (and the heap order of
`std::priority_queue`).  Note the C++ comparator is not a strict weak ordering
(the 10-unit band is not transitive), so `std::sort`'s behaviour there is
unspecified; insertion sort is one faithful deterministic instantiation. -/
def sortByCmp (cmp : α → α → Bool) : List α → List α
  | [] => []
  | x :: xs => insertSorted cmp x (sortByCmp cmp xs)

/-- The candidate pool collected by `Unit::FindTargetWithPriority`: all living
opposing units within `1.5 *` the unit's attack range, paired with their
distance, in unit-list order. -/
def unitCandidates (u : GUnit) (allUnits : List GUnit) : List (GUnit × ℚ) :=
  (allUnits.filter fun v =>
      v.isAlive && v.isPlayer != u.isPlayer &&
      decide (CalculateDistance u.position v.position ≤ u.attackRange * (3/2))).map
    (fun v => (v, CalculateDistance u.position v.position))

/-- `Unit::FindTargetWithPriority`: sort the candidates (closest first, lower
HP first within the 10-unit band) and take the front; `none` if no candidates. -/
def FindTargetWithPriority (u : GUnit) (allUnits : List GUnit) : Option Nat :=
  match sortByCmp targetCmp (unitCandidates u allUnits) with
  | [] => none
  | best :: _ => some best.1.id

/-- `Unit::FollowPath`: pop the head waypoint when within the 5-unit snap
threshold (moving nothing that tick), otherwise advance `speed * dt` toward
`currentTargetPos` (the normalised direction on the lane is `±1`). -/
def FollowPath (dt : ℚ) (u : GUnit) : GUnit :=
  match u.path with
  | [] => u
  | _ :: rest =>
    let dir := u.currentTargetPos - u.position
    let dist := fabs dir
    if dist < 5 then
      { u with path := rest, currentTargetPos := rest.headD u.currentTargetPos }
    else
      { u with position := u.position + dir / dist * u.speed * dt }

/-- A tower (`class Tower`).  `targetQueue` models the
`std::priority_queue` rebuilt by `UpdateTargetQueue`: the in-range living
enemies as `(id, distance)` pairs, stored best-first (the heap is ordered with
the unit HP values current at push time; a later HP change does not re-order
it, which the snapshot at build time reproduces). -/
structure Tower where
  position : ℚ
  currentHP : Int
  maxHP : Int
  damage : Int
  attackRate : ℚ
  attackTimer : ℚ
  isPlayer : Bool
  isAlive : Bool
  targetQueue : List (Nat × ℚ)
deriving DecidableEq, Repr

/-- The `Tower` constructor. -/
def mkTower (player : Bool) : Tower :=
  { position := if player then 50 else SCREEN_WIDTH - 50
    currentHP := TOWER_HP
    maxHP := TOWER_HP
    damage := TOWER_DAMAGE
    attackRate := TOWER_ATTACK_RATE
    attackTimer := 0
    isPlayer := player
    isAlive := true
    targetQueue := [] }

/-- `Tower::UpdateTargetQueue`: clear and rebuild the queue from the living
opposing units strictly within `TOWER_RANGE`, best first. -/
def UpdateTargetQueue (t : Tower) (units : List GUnit) : List (Nat × ℚ) :=
  (sortByCmp targetCmp
    ((units.filter fun u =>
        u.isAlive && u.isPlayer != t.isPlayer &&
        decide (CalculateDistance t.position u.position < TOWER_RANGE)).map
      (fun u => (u, CalculateDistance t.position u.position)))).map
    (fun p => (p.1.id, p.2))

/-- `Tower::Update`: accumulate the attack timer and rebuild the target queue;
a dead tower does nothing. -/
def Tower.update (dt : ℚ) (units : List GUnit) (t : Tower) : Tower :=
  if !t.isAlive then t
  else { t with attackTimer := t.attackTimer + dt,
                targetQueue := UpdateTargetQueue t units }

/-- `Tower::GetBestTarget`: the top of the priority queue. -/
def Tower.GetBestTarget (t : Tower) : Option Nat :=
  match t.targetQueue with
  | [] => none
  | best :: _ => some best.1

/-- `Tower::CanAttack`. -/
def Tower.CanAttack (t : Tower) : Bool := t.attackTimer ≥ t.attackRate

/-- A wave definition (`struct GameWave`).  The linked chain
(`nextWave` pointers, last wave's successor being the head) is modelled as a
list with the successor index computed modulo the length. -/
structure GameWave where
  waveNumber : Nat
  waveUnits : List (UnitType × Nat)
  spawnRate : ℚ
  waveCooldown : ℚ
deriving DecidableEq, Repr

/-- `Game::InitializeWaves`: the eight waves of the chain. -/
def initialWaves : List GameWave :=
  [ { waveNumber := 1, waveUnits := [(.KNIGHT, 2), (.WIZARD, 1)], spawnRate := 4,   waveCooldown := 10 },
    { waveNumber := 2, waveUnits := [(.GIANT, 1), (.KNIGHT, 1), (.ARCHER, 1)], spawnRate := 7/2, waveCooldown := 10 },
    { waveNumber := 3, waveUnits := [(.ARCHER, 2), (.WIZARD, 1)], spawnRate := 7/2, waveCooldown := 10 },
    { waveNumber := 4, waveUnits := [(.GIANT, 1), (.WIZARD, 2)], spawnRate := 7/2, waveCooldown := 10 },
    { waveNumber := 5, waveUnits := [(.KNIGHT, 2), (.ARCHER, 1), (.GIANT, 1)], spawnRate := 3, waveCooldown := 10 },
    { waveNumber := 6, waveUnits := [(.WIZARD, 1), (.ARCHER, 2), (.KNIGHT, 1)], spawnRate := 3, waveCooldown := 10 },
    { waveNumber := 7, waveUnits := [(.GIANT, 1), (.WIZARD, 1), (.ARCHER, 2)], spawnRate := 5/2, waveCooldown := 10 },
    { waveNumber := 8, waveUnits := [(.KNIGHT, 2), (.GIANT, 1), (.WIZARD, 1)], spawnRate := 5/2, waveCooldown := 10 } ]

/-- The whole game state (`class Game`).  Projectiles are purely visual; only
their `progress` values are modelled (`CreateAttackEffect` pushes a fresh one
at progress 0).  `nextId` is the modelling device for fresh unit ids. -/
structure Game where
  currentState : GameState
  playerTower : Tower
  enemyTower : Tower
  units : List GUnit
  projectiles : List ℚ
  freezeAvailable : Bool
  freezeCooldown : ℚ
  playerElixir : Int
  enemyElixir : Int
  elixirTimer : ℚ
  waves : List GameWave
  currentWaveIdx : Nat
  waveSpawnTimer : ℚ
  currentUnitTypeIndex : Nat
  unitsSpawnedForCurrentType : Nat
  isBetweenWaves : Bool
  betweenWavesTimer : ℚ
  gameTimer : ℚ
  gameOver : Bool
  winner : String
  nextId : Nat
deriving DecidableEq, Repr

def FREEZE_DURATION : ℚ := 5
def FREEZE_COOLDOWN : ℚ := 30
def MAX_ELIXIR : Int := 10
def ELIXIR_RATE : ℚ := 2
def GAME_TIME_LIMIT : ℚ := 120

/-- The `Game` constructor. -/
def initGame : Game :=
  { currentState := .START_SCREEN
    playerTower := mkTower true
    enemyTower := mkTower false
    units := []
    projectiles := []
    freezeAvailable := true
    freezeCooldown := 0
    playerElixir := 5
    enemyElixir := 5
    elixirTimer := 0
    waves := initialWaves
    currentWaveIdx := 0
    waveSpawnTimer := 0
    currentUnitTypeIndex := 0
    unitsSpawnedForCurrentType := 0
    isBetweenWaves := false
    betweenWavesTimer := 0
    gameTimer := GAME_TIME_LIMIT
    gameOver := false
    winner := ""
    nextId := 0 }

/-- Look up a unit by id (dereferencing a `Unit*`). -/
def Game.findUnit (g : Game) (i : Nat) : Option GUnit :=
  g.units.find? (fun u => u.id == i)

/-- Mutate the unit with the given id in place. -/
def Game.modifyUnit (g : Game) (i : Nat) (f : GUnit → GUnit) : Game :=
  { g with units := g.units.map (fun u => if u.id = i then f u else u) }

/-- `Unit::Attack` (attacker `i`, primary target `j`): silently no-op on a
dead target; otherwise reduce the target's HP by the attacker's damage, apply
wizard splash (half damage, C++ integer division, to every other living
opposing unit within 60 of the target), and if the primary target's HP dropped
to `≤ 0`, mark it dead and clear the attacker's target pointer.  Because the
splash loop excludes the target, the target's HP after splash is exactly
`t.currentHP - u.damage`, which the kill check reads back. -/
def Unit.attack (i j : Nat) (g : Game) : Game :=
  match g.findUnit i, g.findUnit j with
  | some u, some t =>
    if !t.isAlive then g
    else
      let g1 := g.modifyUnit j (fun v => { v with currentHP := v.currentHP - u.damage })
      let g2 :=
        if u.type = .WIZARD then
          { g1 with units := g1.units.map (fun w =>
              if w.isAlive ∧ w.id ≠ j ∧ w.isPlayer ≠ u.isPlayer ∧
                  CalculateDistance w.position t.position < 60 then
                -- C++ `damage / 2` truncates toward zero: `Int.tdiv`.
                { w with currentHP := w.currentHP - u.damage.tdiv 2 }
              else w) }
        else g1
      if t.currentHP - u.damage ≤ 0 then
        (g2.modifyUnit j (fun v => { v with isAlive := false })).modifyUnit i
          (fun v => { v with target := none })
      else g2
  | _, _ => g

/-- The target-validity test of `Unit::Update`
(`!target || !target->isAlive`, with a dangling pointer to an erased unit
modelled as a failed lookup). -/
def Game.targetInvalid (g : Game) (u : GUnit) : Bool :=
  match u.target with
  | none => true
  | some j =>
    match g.findUnit j with
    | some t => !t.isAlive
    | none => true

/-- `Unit::Update` for the unit with id `i`: dead units do nothing; frozen
units only run down their freeze timer (clearing the flag at `≤ 0`) and are
otherwise inert for the whole tick; then target acquisition when the current
target is absent or dead, and the attack / approach / march step. -/
def Unit.update (dt : ℚ) (i : Nat) (g : Game) : Game :=
  match g.findUnit i with
  | none => g
  | some u =>
    if !u.isAlive then g
    else if u.isFrozen then
      g.modifyUnit i (fun v =>
        let ft := v.freezeTimer - dt
        { v with freezeTimer := ft, isFrozen := if ft ≤ 0 then false else v.isFrozen })
    else
      let g1 :=
        if g.targetInvalid u then
          g.modifyUnit i (fun v => { v with target := FindTargetWithPriority v g.units })
        else g
      match g1.findUnit i with
      | none => g1
      | some u1 =>
        match u1.target with
        | some j =>
          match g1.findUnit j with
          | some t =>
            if t.isAlive then
              if CalculateDistance u1.position t.position ≤ u1.attackRange then
                let newTimer := u1.attackTimer + dt
                if newTimer ≥ u1.attackRate then
                  (Unit.attack i j (g1.modifyUnit i (fun v => { v with attackTimer := newTimer}))).modifyUnit
                    i (fun v => { v with attackTimer := 0 })
                else g1.modifyUnit i (fun v => { v with attackTimer := newTimer })
              else
                (g1.modifyUnit i (FollowPath dt)).modifyUnit i (fun v => { v with attackTimer := 0 })
            else g1.modifyUnit i (FollowPath dt)
          | none => g1.modifyUnit i (FollowPath dt)
        | none => g1.modifyUnit i (FollowPath dt)

/-- The tower-impact check following `(*it)->Update(...)` in the unit loop of
`Game::Update`: a player unit at `x ≥ enemyTower.x - 60` damages the enemy
tower (symmetrically for enemy units), the visual effect is pushed, and a
tower falling to `≤ 0` HP is clamped to 0, marked dead, and ends the match. -/
def laneEndCheck (i : Nat) (g : Game) : Game :=
  match g.findUnit i with
  | none => g
  | some u =>
    if u.isPlayer ∧ u.position ≥ g.enemyTower.position - 60 then
      let hp := g.enemyTower.currentHP - u.damage
      let g' := { g with enemyTower := { g.enemyTower with currentHP := hp },
                         projectiles := g.projectiles ++ [0] }
      if hp ≤ 0 then
        { g' with enemyTower := { g'.enemyTower with currentHP := 0, isAlive := false },
                  gameOver := true, winner := "Player Wins!" }
      else g'
    else if !u.isPlayer ∧ u.position ≤ g.playerTower.position + 60 then
      let hp := g.playerTower.currentHP - u.damage
      let g' := { g with playerTower := { g.playerTower with currentHP := hp },
                         projectiles := g.projectiles ++ [0] }
      if hp ≤ 0 then
        { g' with playerTower := { g'.playerTower with currentHP := 0, isAlive := false },
                  gameOver := true, winner := "Enemy Wins!" }
      else g'
    else g

/-- One iteration of the unit loop for a living unit: its `Unit::Update`
followed by the tower-impact check. -/
def processOneUnit (dt : ℚ) (i : Nat) (g : Game) : Game :=
  laneEndCheck i (Unit.update dt i g)

/-- Erase the unit with id `i` from the live collection
(`it = units.erase(it)`). -/
def Game.eraseUnit (g : Game) (i : Nat) : Game :=
  { g with units := g.units.filter (fun u => u.id ≠ i) }

/-- The unit loop of `Game::Update`: visit the units in list order (the id
snapshot is taken up front; the loop never inserts units, and only erases the
one being visited, so this matches `std::list` iterator semantics); living
units are updated and lane-end-checked, dead ones are erased. -/
def processUnits (dt : ℚ) : List Nat → Game → Game
  | [], g => g
  | i :: rest, g =>
    match g.findUnit i with
    | none => processUnits dt rest g
    | some u =>
      if u.isAlive then processUnits dt rest (processOneUnit dt i g)
      else processUnits dt rest (g.eraseUnit i)

/-- The player-tower block of `Game::HandleTowerAttacks`: when the timer has
matured, attack the top of the (stale, built before the unit loop) target
queue.  NOTE: unlike `Unit::Attack` there is no aliveness check here — the
target's HP is reduced even if it died earlier in the tick (in C++ the pointer
may even dangle if the unit was erased; the id lookup models that case as a
no-op). -/
def playerTowerAttack (g : Game) : Game :=
  if g.playerTower.CanAttack then
    match g.playerTower.GetBestTarget with
    | some j =>
      let g' := g.modifyUnit j (fun v => { v with currentHP := v.currentHP - g.playerTower.damage })
      { g' with projectiles := g'.projectiles ++ [0],
                playerTower := { g'.playerTower with attackTimer := 0 } }
    | none => g
  else g

/-- The enemy-tower block of `Game::HandleTowerAttacks` (same caveat as the
player block: no aliveness check on the queued target). -/
def enemyTowerAttack (g : Game) : Game :=
  if g.enemyTower.CanAttack then
    match g.enemyTower.GetBestTarget with
    | some j =>
      let g' := g.modifyUnit j (fun v => { v with currentHP := v.currentHP - g.enemyTower.damage })
      { g' with projectiles := g'.projectiles ++ [0],
                enemyTower := { g'.enemyTower with attackTimer := 0 } }
    | none => g
  else g

/-- `Game::HandleTowerAttacks`: the player-tower block, then the enemy-tower
block. -/
def HandleTowerAttacks (g : Game) : Game :=
  enemyTowerAttack (playerTowerAttack g)

/-- The per-wave assignment of the difficulty ratchet:
`spawnRate = std::max(2.0f, spawnRate * 0.9f)`. -/
def decayRate (x : ℚ) : ℚ := fmax 2 (x * (9/10))

/-- The permanent difficulty ratchet applied to the whole wave chain on a full
cycle. -/
def decayWaves (ws : List GameWave) : List GameWave :=
  ws.map (fun w => { w with spawnRate := decayRate w.spawnRate })

/-- `Game::HandleWaveProgression`.  In cooldown: run down the between-waves
timer and, at `≤ 0`, re-enter spawning with all per-wave counters reset (the
wave pointer was already advanced when the cooldown began).  In spawning:
accumulate the spawn timer; spawn the next unit of the current composition
entry when it matures, advancing to the next entry when the entry's count is
met; when the entries are exhausted, enter cooldown and immediately advance
the wave pointer — wrapping from the last wave to the first applies
`decayWaves` to the whole chain. -/
def HandleWaveProgression (dt : ℚ) (g : Game) : Game :=
  match g.waves[g.currentWaveIdx]? with
  | none => g
  | some w =>
    if g.gameOver then g
    else if g.isBetweenWaves then
      let bt := g.betweenWavesTimer - dt
      if bt ≤ 0 then
        { g with betweenWavesTimer := bt, isBetweenWaves := false,
                 waveSpawnTimer := 0, currentUnitTypeIndex := 0,
                 unitsSpawnedForCurrentType := 0 }
      else { g with betweenWavesTimer := bt }
    else
      let st := g.waveSpawnTimer + dt
      match w.waveUnits[g.currentUnitTypeIndex]? with
      | some entry =>
        if st ≥ w.spawnRate ∧ g.unitsSpawnedForCurrentType < entry.2 then
          let g' := { g with units := g.units ++ [mkUnit g.nextId entry.1 false],
                             nextId := g.nextId + 1 }
          if g.unitsSpawnedForCurrentType + 1 ≥ entry.2 then
            { g' with waveSpawnTimer := 0, currentUnitTypeIndex := g.currentUnitTypeIndex + 1,
                      unitsSpawnedForCurrentType := 0 }
          else
            { g' with waveSpawnTimer := 0,
                      unitsSpawnedForCurrentType := g.unitsSpawnedForCurrentType + 1 }
        else { g with waveSpawnTimer := st }
      | none =>
        let g' := { g with waveSpawnTimer := st, isBetweenWaves := true,
                           betweenWavesTimer := w.waveCooldown }
        if g.currentWaveIdx + 1 < g.waves.length then
          { g' with currentWaveIdx := g.currentWaveIdx + 1 }
        else
          { g' with currentWaveIdx := 0, waves := decayWaves g.waves }

/-- The freeze-ability cooldown block of `Game::Update`. -/
def stepFreezeCooldown (dt : ℚ) (g : Game) : Game :=
  if !g.freezeAvailable then
    let fc := g.freezeCooldown - dt
    if fc ≤ 0 then { g with freezeAvailable := true, freezeCooldown := 0 }
    else { g with freezeCooldown := fc }
  else g

/-- The match-countdown block of `Game::Update`: at `≤ 0` the timer is clamped
to 0 and the match ends in a Draw (the C++ then continues the tick). -/
def stepGameTimer (dt : ℚ) (g : Game) : Game :=
  let gt := g.gameTimer - dt
  if gt ≤ 0 then { g with gameTimer := 0, gameOver := true, winner := "Draw" }
  else { g with gameTimer := gt }

/-- The elixir-accrual block of `Game::Update`. -/
def stepElixir (dt : ℚ) (g : Game) : Game :=
  let et := g.elixirTimer + dt
  if et ≥ ELIXIR_RATE then
    { g with playerElixir := if g.playerElixir < MAX_ELIXIR then g.playerElixir + 1 else g.playerElixir,
             enemyElixir := if g.enemyElixir < MAX_ELIXIR then g.enemyElixir + 1 else g.enemyElixir,
             elixirTimer := 0 }
  else { g with elixirTimer := et }

/-- The two `Tower::Update` calls of `Game::Update`. -/
def stepTowers (dt : ℚ) (g : Game) : Game :=
  let g := { g with playerTower := Tower.update dt g.units g.playerTower }
  { g with enemyTower := Tower.update dt g.units g.enemyTower }

/-- The projectile advance-and-prune block of `Game::Update`. -/
def stepProjectiles (dt : ℚ) (g : Game) : Game :=
  { g with projectiles := (g.projectiles.map (fun p => p + 3 * dt)).filter (fun p => decide (p < 1)) }

/-- `Game::Update` — one tick.  On the start screen and the game-over screen
the simulation waits for commands (the key polling is modelled by `PressStart`
and `PressR`); a tick that finds `gameOver` set transitions to the game-over
screen and stops.  Otherwise, in source order: freeze cool-down, match
countdown, elixir accrual, tower updates, the unit loop, projectile
advance/prune, tower attacks, wave progression. -/
def Game.update (dt : ℚ) (g : Game) : Game :=
  if g.currentState = .START_SCREEN then g
  else if g.currentState = .GAME_OVER then g
  else if g.gameOver then { g with currentState := .GAME_OVER }
  else
    let g := stepFreezeCooldown dt g
    let g := stepGameTimer dt g
    let g := stepElixir dt g
    let g := stepTowers dt g
    let g := processUnits dt (g.units.map (fun u => u.id)) g
    let g := stepProjectiles dt g
    let g := HandleTowerAttacks g
    HandleWaveProgression dt g

/-- `Game::SpawnUnit`: only while Playing; deduct the cost and append one
player unit only when the elixir suffices; otherwise a silent no-op. -/
def SpawnUnit (t : UnitType) (g : Game) : Game :=
  if g.currentState ≠ .PLAYING then g
  else
    let stats := getUnitStats t
    if stats.cost ≤ g.playerElixir then
      { g with units := g.units ++ [mkUnit g.nextId t true],
               playerElixir := g.playerElixir - stats.cost,
               nextId := g.nextId + 1 }
    else g

/-- `Game::ActivateFreeze`: only while Playing and when available; freeze every
living enemy unit for the full duration, start the cooldown, and emit the 20
visual-effect projectiles of `CreateFreezeEffect`. -/
def ActivateFreeze (g : Game) : Game :=
  if g.currentState ≠ .PLAYING then g
  else if !g.freezeAvailable then g
  else
    let frozen := g.units.map (fun u =>
      if !u.isPlayer ∧ u.isAlive then
        { u with isFrozen := true, freezeTimer := FREEZE_DURATION }
      else u)
    { g with units := frozen,
             freezeAvailable := false,
             freezeCooldown := FREEZE_COOLDOWN,
             projectiles := g.projectiles ++ List.replicate 20 0 }

/-- `Game::Reset`: clear units and effects, recreate both towers, restore
elixir, timers, freeze and the wave-sequencer position.  Note the wave chain
itself (`waves`) is NOT touched: decayed `spawnRate` values persist across a
reset.  (`currentState` is set by the caller; `nextId` is a modelling
artefact and is deliberately left alone.) -/
def Game.Reset (g : Game) : Game :=
  { g with units := [], projectiles := [],
           playerTower := mkTower true, enemyTower := mkTower false,
           playerElixir := 5, enemyElixir := 5, elixirTimer := 0,
           gameOver := false, winner := "", gameTimer := GAME_TIME_LIMIT,
           freezeAvailable := true, freezeCooldown := 0,
           currentWaveIdx := 0, waveSpawnTimer := 0, currentUnitTypeIndex := 0,
           unitsSpawnedForCurrentType := 0, isBetweenWaves := false,
           betweenWavesTimer := 0 }

/-- The Enter key on the start screen (handled inside `Game::Update`). -/
def PressStart (g : Game) : Game :=
  if g.currentState = .START_SCREEN then { g with currentState := .PLAYING } else g

/-- The R key on the game-over screen: `Reset()` then re-enter Playing. -/
def PressR (g : Game) : Game :=
  if g.currentState = .GAME_OVER then { g.Reset with currentState := .PLAYING } else g

/-- The spec's `reset()` command: `Game::Reset` followed by re-entering the
Playing phase, exactly what the R-key handler performs. -/
def resetCmd (g : Game) : Game :=
  { g.Reset with currentState := .PLAYING }

/-- One external interaction with the simulation: a frame tick with a
non-negative elapsed time, or one of the discrete commands. -/
inductive Step : Game → Game → Prop where
  | update (dt : ℚ) (h : 0 ≤ dt) (g : Game) : Step g (Game.update dt g)
  | spawn (t : UnitType) (g : Game) : Step g (SpawnUnit t g)
  | freeze (g : Game) : Step g (ActivateFreeze g)
  | start (g : Game) : Step g (PressStart g)
  | restart (g : Game) : Step g (PressR g)

/-- The states a simulation can be in: the initial state and everything
obtainable by ticks and commands. -/
inductive Reachable : Game → Prop where
  | init : Reachable initGame
  | step {g g' : Game} : Reachable g → Step g g' → Reachable g'

/-- Iterated ticks with a fixed frame time. -/
def iterUpdate (n : Nat) (dt : ℚ) (g : Game) : Game :=
  match n with
  | 0 => g
  | n + 1 => iterUpdate n dt (Game.update dt g)

theorem reachable_iterUpdate {g : Game} {dt : ℚ} (hdt : 0 ≤ dt) (n : Nat)
    (hg : Reachable g) : Reachable (iterUpdate n dt g) := by
  induction n generalizing g with
  | zero => exact hg
  | succ n ih => exact ih (hg.step (Step.update dt hdt g))

/-! ### The health/liveness invariant -/

/-- The per-unit part of the health invariant that the code actually
maintains: health never above the maximum, a dead unit is at `≤ 0` health,
and damage values are non-negative. -/
def UnitOK (u : GUnit) : Prop :=
  u.currentHP ≤ u.maxHP ∧ (u.isAlive = false → u.currentHP ≤ 0) ∧ 0 ≤ u.damage

/-- The global invariant: every unit is `UnitOK`, unit ids are distinct and
below the fresh-id counter, and tower damage values are non-negative. -/
def GInv (g : Game) : Prop :=
  (∀ u ∈ g.units, UnitOK u) ∧
  (g.units.map (fun u => u.id)).Nodup ∧
  (∀ u ∈ g.units, u.id < g.nextId) ∧
  0 ≤ g.playerTower.damage ∧ 0 ≤ g.enemyTower.damage

/-- "Once dead, never alive again": a unit that is alive afterwards was alive
before (for the same id). -/
def NoRevive (g g' : Game) : Prop :=
  ∀ u' ∈ g'.units, u'.isAlive = true → ∀ u ∈ g.units, u.id = u'.id → u.isAlive = true

/-- One simulation operation's effect: the invariant is maintained, no unit is
revived, the fresh-id counter never decreases, and any surviving unit with an
old id descends from a unit of the previous state. -/
def Evolves (g g' : Game) : Prop :=
  GInv g' ∧ NoRevive g g' ∧ g.nextId ≤ g'.nextId ∧
  (∀ u' ∈ g'.units, u'.id < g.nextId → ∃ u ∈ g.units, u.id = u'.id)

theorem evolves_rfl {g : Game} (hg : GInv g) : Evolves g g :=
  ⟨hg, fun _ _ h _ hu hid => by
      have := List.inj_on_of_nodup_map hg.2.1
      · exact (this hu ‹_› hid) ▸ h,
    le_rfl, fun u' hu' _ => ⟨u', hu', rfl⟩⟩

theorem evolves_trans {g g' g'' : Game} (hg : GInv g)
    (h1 : Evolves g g') (h2 : Evolves g' g'') : Evolves g g'' := by
  obtain ⟨hg1, hnr1, hle1, hor1⟩ := h1
  obtain ⟨hg2, hnr2, hle2, hor2⟩ := h2
  refine ⟨hg2, ?_, hle1.trans hle2, ?_⟩
  · intro u'' hu'' halive u hu hid
    have hid_lt : u.id < g.nextId := hg.2.2.1 u hu
    obtain ⟨v, hv, hvid⟩ := hor2 u'' hu'' (by rw [← hid]; exact lt_of_lt_of_le hid_lt hle1)
    have hv_alive := hnr2 u'' hu'' halive v hv hvid
    exact hnr1 v hv hv_alive u hu (hid.trans hvid.symm)
  · intro u'' hu'' hlt
    obtain ⟨v, hv, hvid⟩ := hor2 u'' hu'' (lt_of_lt_of_le hlt hle1)
    obtain ⟨u, hu, huid⟩ := hor1 v hv (by rw [hvid]; exact hlt)
    exact ⟨u, hu, by rw [huid, hvid]⟩

/-- Operations that do not touch the unit list, the id counter, or the tower
damage fields trivially evolve the state. -/
theorem evolves_of_fields {g g' : Game} (hg : GInv g)
    (hu : g'.units = g.units) (hn : g'.nextId = g.nextId)
    (hpd : g'.playerTower.damage = g.playerTower.damage)
    (hed : g'.enemyTower.damage = g.enemyTower.damage) : Evolves g g' := by
  refine ⟨⟨by rw [hu]; exact hg.1, by rw [hu]; exact hg.2.1,
           by rw [hu, hn]; exact hg.2.2.1, by rw [hpd]; exact hg.2.2.2.1,
           by rw [hed]; exact hg.2.2.2.2⟩, ?_, hn.ge, ?_⟩
  · intro u' hu' h u hum hid
    rw [hu] at hu'
    exact (List.inj_on_of_nodup_map hg.2.1 hum hu' hid) ▸ h
  · intro u' hu' _
    rw [hu] at hu'
    exact ⟨u', hu', rfl⟩

/-- Operations whose only effect on units is a pointwise map that keeps ids,
keeps `UnitOK`, and never revives. -/
theorem evolves_mapUnits {g g' : Game} (hg : GInv g) (f : GUnit → GUnit)
    (hu : g'.units = g.units.map f) (hn : g'.nextId = g.nextId)
    (hpd : g'.playerTower.damage = g.playerTower.damage)
    (hed : g'.enemyTower.damage = g.enemyTower.damage)
    (hid : ∀ u ∈ g.units, (f u).id = u.id)
    (hok : ∀ u ∈ g.units, UnitOK u → UnitOK (f u))
    (hal : ∀ u ∈ g.units, (f u).isAlive = true → u.isAlive = true) :
    Evolves g g' := by
  have hids : g'.units.map (fun u => u.id) = g.units.map (fun u => u.id) := by
    rw [hu, List.map_map]
    exact List.map_congr_left fun u hu => hid u hu
  refine ⟨⟨?_, by rw [hids]; exact hg.2.1, ?_, by rw [hpd]; exact hg.2.2.2.1,
           by rw [hed]; exact hg.2.2.2.2⟩, ?_, hn.ge, ?_⟩
  · intro u' hu'
    rw [hu] at hu'
    obtain ⟨u, hum, rfl⟩ := List.mem_map.mp hu'
    exact hok u hum (hg.1 u hum)
  · intro u' hu'
    rw [hu] at hu'
    rw [hn]
    obtain ⟨u, hum, rfl⟩ := List.mem_map.mp hu'
    rw [hid u hum]
    exact hg.2.2.1 u hum
  · intro u' hu' halive u hum hid_eq
    rw [hu] at hu'
    obtain ⟨v, hvm, rfl⟩ := List.mem_map.mp hu'
    have : u = v := List.inj_on_of_nodup_map hg.2.1 hum hvm (by rw [hid_eq, hid v hvm])
    subst this
    exact hal u hvm halive
  · intro u' hu' _
    rw [hu] at hu'
    obtain ⟨u, hum, rfl⟩ := List.mem_map.mp hu'
    exact ⟨u, hum, (hid u hum).symm⟩

/-- `Game.modifyUnit` as a special case of `evolves_mapUnits`. -/
theorem evolves_modifyUnit {g : Game} (hg : GInv g) (i : Nat) (f : GUnit → GUnit)
    (hid : ∀ u, (f u).id = u.id)
    (hok : ∀ u ∈ g.units, u.id = i → UnitOK u → UnitOK (f u))
    (hal : ∀ u, (f u).isAlive = true → u.isAlive = true) :
    Evolves g (g.modifyUnit i f) := by
  refine evolves_mapUnits hg (fun u => if u.id = i then f u else u) rfl rfl rfl rfl ?_ ?_ ?_
  · intro u _; by_cases h : u.id = i <;> simp [h, hid]
  · intro u hum hu
    by_cases h : u.id = i
    · simpa [h] using hok u hum h hu
    · simpa [h] using hu
  · intro u hum h
    simp only at h
    by_cases hc : u.id = i
    · rw [if_pos hc] at h; exact hal u h
    · rwa [if_neg hc] at h

/-- Erasing a unit evolves the state. -/
theorem evolves_eraseUnit {g : Game} (hg : GInv g) (i : Nat) :
    Evolves g (g.eraseUnit i) := by
  have hsub : ∀ u ∈ (g.eraseUnit i).units, u ∈ g.units := by
    intro u hu
    exact List.mem_of_mem_filter hu
  refine ⟨⟨fun u hu => hg.1 u (hsub u hu), ?_, fun u hu => hg.2.2.1 u (hsub u hu),
           hg.2.2.2.1, hg.2.2.2.2⟩, ?_, le_rfl, ?_⟩
  · exact hg.2.1.sublist ((List.filter_sublist _).map _)
  · intro u' hu' h u hum hid
    exact (List.inj_on_of_nodup_map hg.2.1 hum (hsub u' hu') hid) ▸ h
  · intro u' hu' _
    exact ⟨u', hsub u' hu', rfl⟩

theorem Tower.update_damage (dt : ℚ) (units : List GUnit) (t : Tower) :
    (Tower.update dt units t).damage = t.damage := by
  unfold Tower.update; split <;> rfl

theorem evolves_stepFreezeCooldown {g : Game} (hg : GInv g) (dt : ℚ) :
    Evolves g (stepFreezeCooldown dt g) := by
  unfold stepFreezeCooldown
  dsimp only
  split
  · split <;> exact evolves_of_fields hg rfl rfl rfl rfl
  · exact evolves_rfl hg

theorem evolves_stepGameTimer {g : Game} (hg : GInv g) (dt : ℚ) :
    Evolves g (stepGameTimer dt g) := by
  unfold stepGameTimer
  dsimp only
  split <;> exact evolves_of_fields hg rfl rfl rfl rfl

theorem evolves_stepElixir {g : Game} (hg : GInv g) (dt : ℚ) :
    Evolves g (stepElixir dt g) := by
  unfold stepElixir
  dsimp only
  split <;> exact evolves_of_fields hg rfl rfl rfl rfl

theorem evolves_stepTowers {g : Game} (hg : GInv g) (dt : ℚ) :
    Evolves g (stepTowers dt g) :=
  evolves_of_fields hg rfl rfl (Tower.update_damage dt g.units g.playerTower)
    (Tower.update_damage dt g.units g.enemyTower)

theorem evolves_stepProjectiles {g : Game} (hg : GInv g) (dt : ℚ) :
    Evolves g (stepProjectiles dt g) :=
  evolves_of_fields hg rfl rfl rfl rfl

theorem evolves_laneEndCheck {g : Game} (hg : GInv g) (i : Nat) :
    Evolves g (laneEndCheck i g) := by
  unfold laneEndCheck
  cases hf : g.findUnit i with
  | none => exact evolves_rfl hg
  | some u =>
    dsimp only
    split
    · split <;> exact evolves_of_fields hg rfl rfl rfl rfl
    · split
      · split <;> exact evolves_of_fields hg rfl rfl rfl rfl
      · exact evolves_rfl hg

theorem unitOK_mkUnit (id : Nat) (ty : UnitType) (pl : Bool) :
    UnitOK (mkUnit id ty pl) := by
  cases ty <;> simp [UnitOK, mkUnit, getUnitStats]

/-- Appending a freshly-created unit with the current `nextId` (and bumping
the counter) evolves the state. -/
theorem evolves_appendFresh {g g' : Game} (hg : GInv g) (ty : UnitType) (pl : Bool)
    (hu : g'.units = g.units ++ [mkUnit g.nextId ty pl]) (hn : g'.nextId = g.nextId + 1)
    (hpd : g'.playerTower.damage = g.playerTower.damage)
    (hed : g'.enemyTower.damage = g.enemyTower.damage) : Evolves g g' := by
  have hfresh : ∀ u ∈ g.units, u.id ≠ g.nextId :=
    fun u hu => Nat.ne_of_lt (hg.2.2.1 u hu)
  refine ⟨⟨?_, ?_, ?_, by rw [hpd]; exact hg.2.2.2.1, by rw [hed]; exact hg.2.2.2.2⟩,
          ?_, by rw [hn]; exact Nat.le_succ _, ?_⟩
  · intro u hum
    rw [hu] at hum
    rcases List.mem_append.mp hum with h | h
    · exact hg.1 u h
    · rw [List.mem_singleton.mp h]; exact unitOK_mkUnit _ _ _
  · rw [hu, List.map_append]
    refine hg.2.1.append (List.nodup_singleton _) ?_
    intro a ha hb
    obtain ⟨u, hum, rfl⟩ := List.mem_map.mp ha
    simp only [List.map_cons, List.map_nil, List.mem_singleton] at hb
    exact hfresh u hum (hb.trans (mkUnit_id _ _ _))
  · intro u hum
    rw [hu] at hum
    rw [hn]
    rcases List.mem_append.mp hum with h | h
    · exact (hg.2.2.1 u h).trans (Nat.lt_succ_self _)
    · rw [List.mem_singleton.mp h]; exact Nat.lt_succ_self _
  · intro u' hu' _ u hum hid
    rw [hu] at hu'
    rcases List.mem_append.mp hu' with h | h
    · exact (List.inj_on_of_nodup_map hg.2.1 hum h hid) ▸ ‹u'.isAlive = true›
    · refine absurd (hid.trans ?_) (hfresh u hum)
      rw [List.mem_singleton.mp h]
      exact mkUnit_id _ _ _
  · intro u' hu' hlt
    rw [hu] at hu'
    rcases List.mem_append.mp hu' with h | h
    · exact ⟨u', h, rfl⟩
    · rw [List.mem_singleton.mp h] at hlt
      exact absurd hlt (by simp [mkUnit])

/-- With distinct ids, any member carrying the looked-up id is the found unit. -/
theorem findUnit_unique {g : Game} (hnd : (g.units.map (fun u => u.id)).Nodup)
    {j : Nat} {t : GUnit} (hf : g.findUnit j = some t) :
    ∀ v ∈ g.units, v.id = j → v = t := by
  intro v hv hvid
  have ht_mem := List.mem_of_find?_eq_some hf
  have ht_id : t.id = j := by simpa using List.find?_some hf
  exact List.inj_on_of_nodup_map hnd hv ht_mem (by rw [hvid, ht_id])

theorem findUnit_mem {g : Game} {i : Nat} {u : GUnit} (hf : g.findUnit i = some u) :
    u ∈ g.units :=
  List.mem_of_find?_eq_some hf

theorem findUnit_id {g : Game} {i : Nat} {u : GUnit} (hf : g.findUnit i = some u) :
    u.id = i := by
  simpa using List.find?_some hf

theorem evolves_attack {g : Game} (hg : GInv g) (i j : Nat) :
    Evolves g (Unit.attack i j g) := by
  unfold Unit.attack
  cases hfi : g.findUnit i with
  | none => exact evolves_rfl hg
  | some u =>
    cases hfj : g.findUnit j with
    | none => exact evolves_rfl hg
    | some t =>
      dsimp only
      split
      · exact evolves_rfl hg
      · have hu_mem := findUnit_mem hfi
        have ht_mem := findUnit_mem hfj
        have hdmg : 0 ≤ u.damage := (hg.1 u hu_mem).2.2
        have htd : 0 ≤ u.damage.tdiv 2 := Int.tdiv_nonneg hdmg (by norm_num)
        have e1 : Evolves g (g.modifyUnit j fun v => { v with currentHP := v.currentHP - u.damage }) := by
          refine evolves_modifyUnit hg j _ (fun v => rfl) ?_ (fun v h => h)
          intro v _ _ hok
          refine ⟨?_, fun hd => ?_, hok.2.2⟩
          · have h1 := hok.1
            dsimp only
            omega
          · have h1 := hok.2.1 hd
            dsimp only
            omega
        set G1 := g.modifyUnit j fun v => { v with currentHP := v.currentHP - u.damage } with hG1
        have e2 : Evolves g (if u.type = .WIZARD then
            { G1 with units := G1.units.map (fun w =>
                if w.isAlive ∧ w.id ≠ j ∧ w.isPlayer ≠ u.isPlayer ∧
                    CalculateDistance w.position t.position < 60 then
                  { w with currentHP := w.currentHP - u.damage.tdiv 2 }
                else w) }
          else G1) := by
          split
          · refine evolves_trans hg e1 (evolves_mapUnits e1.1 _ rfl rfl rfl rfl ?_ ?_ ?_)
            · intro w _
              dsimp only
              split <;> rfl
            · intro w _ hok
              dsimp only
              split
              · refine ⟨?_, fun hd => ?_, hok.2.2⟩
                · have h1 := hok.1
                  dsimp only
                  omega
                · have h1 := hok.2.1 hd
                  dsimp only
                  omega
              · exact hok
            · intro w _ h
              split at h <;> exact h
          · exact e1
        set G2 := (if u.type = .WIZARD then _ else G1) with hG2
        -- Every unit of `G2` carrying the target's id has the target's reduced health:
        -- the primary subtraction hit it, and the splash loop excludes it.
        have hval : ∀ v ∈ G2.units, v.id = j → v.currentHP = t.currentHP - u.damage := by
          intro v hv hvid
          have hmem1 : ∀ v ∈ G1.units, v.id = j → v.currentHP = t.currentHP - u.damage := by
            intro v hv hvid
            rw [hG1] at hv
            simp only [Game.modifyUnit] at hv
            obtain ⟨w, hwm, rfl⟩ := List.mem_map.mp hv
            by_cases hw : w.id = j
            · have : w = t := findUnit_unique hg.2.1 hfj w hwm hw
              subst this
              rw [if_pos hw]
            · rw [if_neg hw] at hvid ⊢
              exact absurd hvid hw
          rw [hG2] at hv
          split at hv
          · simp only [] at hv
            obtain ⟨w, hwm, rfl⟩ := List.mem_map.mp hv
            by_cases hc : w.isAlive ∧ w.id ≠ j ∧ w.isPlayer ≠ u.isPlayer ∧
                CalculateDistance w.position t.position < 60
            · rw [if_pos hc] at hvid ⊢
              exact absurd hvid hc.2.1
            · rw [if_neg hc] at hvid ⊢
              exact hmem1 w hwm hvid
          · exact hmem1 v hv hvid
        split
        · -- the primary target died: mark it dead, clear the attacker's target
          rename_i hkill
          have e3 : Evolves g (G2.modifyUnit j fun v => { v with isAlive := false }) := by
            refine evolves_trans hg e2 (evolves_modifyUnit e2.1 j _ (fun v => rfl) ?_ ?_)
            · intro v hv hvid hok
              refine ⟨hok.1, fun _ => ?_, hok.2.2⟩
              show v.currentHP ≤ 0
              rw [hval v hv hvid]
              exact hkill
            · intro v h
              exact absurd h (by simp)
          exact evolves_trans hg e3
            (evolves_modifyUnit e3.1 i _ (fun v => rfl) (fun v _ _ hok => hok) (fun v h => h))
        · exact e2

theorem FollowPath_fields (dt : ℚ) (v : GUnit) :
    (FollowPath dt v).id = v.id ∧ (FollowPath dt v).currentHP = v.currentHP ∧
    (FollowPath dt v).maxHP = v.maxHP ∧ (FollowPath dt v).damage = v.damage ∧
    (FollowPath dt v).isAlive = v.isAlive ∧ (FollowPath dt v).target = v.target ∧
    (FollowPath dt v).isPlayer = v.isPlayer ∧ (FollowPath dt v).attackTimer = v.attackTimer ∧
    (FollowPath dt v).isFrozen = v.isFrozen := by
  unfold FollowPath
  cases hp : v.path
  · exact ⟨rfl, rfl, rfl, rfl, rfl, rfl, rfl, rfl, rfl⟩
  · dsimp only
    split <;> exact ⟨rfl, rfl, rfl, rfl, rfl, rfl, rfl, rfl, rfl⟩

theorem unitOK_followPath {dt : ℚ} {v : GUnit} (hok : UnitOK v) :
    UnitOK (FollowPath dt v) := by
  obtain ⟨h1, h2, h3, h4, h5, -⟩ := FollowPath_fields dt v
  exact ⟨by rw [h2, h3]; exact hok.1,
         by rw [h5, h2]; exact hok.2.1,
         by rw [h4]; exact hok.2.2⟩

theorem evolves_followPathModify {g : Game} (hg : GInv g) (i : Nat) (dt : ℚ) :
    Evolves g (g.modifyUnit i (FollowPath dt)) := by
  refine evolves_modifyUnit hg i _ (fun v => (FollowPath_fields dt v).1) ?_ ?_
  · intro v _ _ hok; exact unitOK_followPath hok
  · intro v h; rwa [(FollowPath_fields dt v).2.2.2.2.1] at h

theorem evolves_unitUpdate {g : Game} (hg : GInv g) (dt : ℚ) (i : Nat) :
    Evolves g (Unit.update dt i g) := by
  unfold Unit.update
  cases hfi : g.findUnit i with
  | none => exact evolves_rfl hg
  | some u =>
    dsimp only
    split
    · exact evolves_rfl hg
    · split
      · exact evolves_modifyUnit hg i _ (fun v => rfl) (fun v _ _ hok => hok) (fun v h => h)
      · have e1 : Evolves g (if g.targetInvalid u then
            g.modifyUnit i (fun v => { v with target := FindTargetWithPriority v g.units })
          else g) := by
          split
          · exact evolves_modifyUnit hg i _ (fun v => rfl) (fun v _ _ hok => hok) (fun v h => h)
          · exact evolves_rfl hg
        set g1 := (if g.targetInvalid u then _ else g) with hg1
        cases hfi1 : g1.findUnit i with
        | none => exact e1
        | some u1 =>
          dsimp only
          cases u1.target with
          | none => exact evolves_trans hg e1 (evolves_followPathModify e1.1 i dt)
          | some j =>
            dsimp only
            cases hfj : g1.findUnit j with
            | none => exact evolves_trans hg e1 (evolves_followPathModify e1.1 i dt)
            | some t =>
              dsimp only
              split
              · split
                · split
                  · have e2 : Evolves g (g1.modifyUnit i fun v => { v with attackTimer := u1.attackTimer + dt }) :=
                      evolves_trans hg e1 (evolves_modifyUnit e1.1 i _ (fun v => rfl)
                        (fun v _ _ hok => hok) (fun v h => h))
                    have e3 : Evolves g (Unit.attack i j
                        (g1.modifyUnit i fun v => { v with attackTimer := u1.attackTimer + dt })) :=
                      evolves_trans hg e2 (evolves_attack e2.1 i j)
                    exact evolves_trans hg e3 (evolves_modifyUnit e3.1 i _ (fun v => rfl)
                      (fun v _ _ hok => hok) (fun v h => h))
                  · exact evolves_trans hg e1 (evolves_modifyUnit e1.1 i _ (fun v => rfl)
                      (fun v _ _ hok => hok) (fun v h => h))
                · have e2 := evolves_trans hg e1 (evolves_followPathModify e1.1 i dt)
                  exact evolves_trans hg e2 (evolves_modifyUnit e2.1 i _ (fun v => rfl)
                    (fun v _ _ hok => hok) (fun v h => h))
              · exact evolves_trans hg e1 (evolves_followPathModify e1.1 i dt)

theorem evolves_processOneUnit {g : Game} (hg : GInv g) (dt : ℚ) (i : Nat) :
    Evolves g (processOneUnit dt i g) := by
  unfold processOneUnit
  have e := evolves_unitUpdate hg dt i
  exact evolves_trans hg e (evolves_laneEndCheck e.1 i)

theorem evolves_processUnits (dt : ℚ) :
    ∀ (ids : List Nat) {g : Game}, GInv g → Evolves g (processUnits dt ids g) := by
  intro ids
  induction ids with
  | nil => exact fun hg => evolves_rfl hg
  | cons i rest ih =>
    intro g hg
    unfold processUnits
    cases hf : g.findUnit i with
    | none => exact ih hg
    | some u =>
      dsimp only
      split
      · have e1 := evolves_processOneUnit hg dt i
        exact evolves_trans hg e1 (ih e1.1)
      · have e1 := evolves_eraseUnit hg i
        exact evolves_trans hg e1 (ih e1.1)

theorem evolves_playerTowerAttack {g : Game} (hg : GInv g) :
    Evolves g (playerTowerAttack g) := by
  unfold playerTowerAttack
  split
  · cases hb : g.playerTower.GetBestTarget with
    | none => exact evolves_rfl hg
    | some j =>
      dsimp only
      have e1 : Evolves g (g.modifyUnit j fun v =>
          { v with currentHP := v.currentHP - g.playerTower.damage }) := by
        refine evolves_modifyUnit hg j _ (fun v => rfl) ?_ (fun v h => h)
        intro v _ _ hok
        have hd := hg.2.2.2.1
        refine ⟨?_, fun hdd => ?_, hok.2.2⟩
        · have h1 := hok.1
          dsimp only
          omega
        · have h1 := hok.2.1 hdd
          dsimp only
          omega
      exact evolves_trans hg e1 (evolves_of_fields e1.1 rfl rfl rfl rfl)
  · exact evolves_rfl hg

theorem evolves_enemyTowerAttack {g : Game} (hg : GInv g) :
    Evolves g (enemyTowerAttack g) := by
  unfold enemyTowerAttack
  split
  · cases hb : g.enemyTower.GetBestTarget with
    | none => exact evolves_rfl hg
    | some j =>
      dsimp only
      have e1 : Evolves g (g.modifyUnit j fun v =>
          { v with currentHP := v.currentHP - g.enemyTower.damage }) := by
        refine evolves_modifyUnit hg j _ (fun v => rfl) ?_ (fun v h => h)
        intro v _ _ hok
        have hd := hg.2.2.2.2
        refine ⟨?_, fun hdd => ?_, hok.2.2⟩
        · have h1 := hok.1
          dsimp only
          omega
        · have h1 := hok.2.1 hdd
          dsimp only
          omega
      exact evolves_trans hg e1 (evolves_of_fields e1.1 rfl rfl rfl rfl)
  · exact evolves_rfl hg

theorem evolves_handleTowerAttacks {g : Game} (hg : GInv g) :
    Evolves g (HandleTowerAttacks g) := by
  unfold HandleTowerAttacks
  have e1 := evolves_playerTowerAttack hg
  exact evolves_trans hg e1 (evolves_enemyTowerAttack e1.1)

theorem evolves_handleWaveProgression {g : Game} (hg : GInv g) (dt : ℚ) :
    Evolves g (HandleWaveProgression dt g) := by
  unfold HandleWaveProgression
  cases hw : g.waves[g.currentWaveIdx]? with
  | none => exact evolves_rfl hg
  | some w =>
    dsimp only
    split
    · exact evolves_rfl hg
    · split
      · split <;> exact evolves_of_fields hg rfl rfl rfl rfl
      · cases he : w.waveUnits[g.currentUnitTypeIndex]? with
        | some entry =>
          dsimp only
          split
          · split <;> exact evolves_appendFresh hg entry.1 false rfl rfl rfl rfl
          · exact evolves_of_fields hg rfl rfl rfl rfl
        | none =>
          dsimp only
          split <;> exact evolves_of_fields hg rfl rfl rfl rfl

theorem evolves_gameUpdate {g : Game} (hg : GInv g) (dt : ℚ) :
    Evolves g (Game.update dt g) := by
  unfold Game.update
  split
  · exact evolves_rfl hg
  · split
    · exact evolves_rfl hg
    · split
      · exact evolves_of_fields hg rfl rfl rfl rfl
      · have e1 := evolves_stepFreezeCooldown hg dt
        have e2 := evolves_trans hg e1 (evolves_stepGameTimer e1.1 dt)
        have e3 := evolves_trans hg e2 (evolves_stepElixir e2.1 dt)
        have e4 := evolves_trans hg e3 (evolves_stepTowers e3.1 dt)
        set gm := stepTowers dt (stepElixir dt (stepGameTimer dt (stepFreezeCooldown dt g))) with hgm
        have e5 := evolves_trans hg e4 (evolves_processUnits dt (gm.units.map (fun u => u.id)) e4.1)
        have e6 := evolves_trans hg e5 (evolves_stepProjectiles e5.1 dt)
        have e7 := evolves_trans hg e6 (evolves_handleTowerAttacks e6.1)
        exact evolves_trans hg e7 (evolves_handleWaveProgression e7.1 dt)

theorem evolves_spawnUnitCmd {g : Game} (hg : GInv g) (t : UnitType) :
    Evolves g (SpawnUnit t g) := by
  unfold SpawnUnit
  split
  · exact evolves_rfl hg
  · dsimp only
    split
    · exact evolves_appendFresh hg t true rfl rfl rfl rfl
    · exact evolves_rfl hg

theorem evolves_activateFreeze {g : Game} (hg : GInv g) :
    Evolves g (ActivateFreeze g) := by
  unfold ActivateFreeze
  split
  · exact evolves_rfl hg
  · split
    · exact evolves_rfl hg
    · dsimp only
      refine evolves_mapUnits hg _ rfl rfl rfl rfl ?_ ?_ ?_
      · intro u _; dsimp only; split <;> rfl
      · intro u _ hok
        dsimp only
        split
        · exact hok
        · exact hok
      · intro u _ h
        split at h <;> exact h

theorem evolves_pressStart {g : Game} (hg : GInv g) :
    Evolves g (PressStart g) := by
  unfold PressStart
  split
  · exact evolves_of_fields hg rfl rfl rfl rfl
  · exact evolves_rfl hg

theorem evolves_pressR {g : Game} (hg : GInv g) :
    Evolves g (PressR g) := by
  unfold PressR
  split
  · refine ⟨⟨?_, ?_, ?_, ?_, ?_⟩, ?_, le_rfl, ?_⟩
    · intro u hu; simp [Game.Reset] at hu
    · simp [Game.Reset]
    · intro u hu; simp [Game.Reset] at hu
    · simp [Game.Reset, mkTower, TOWER_DAMAGE]
    · simp [Game.Reset, mkTower, TOWER_DAMAGE]
    · intro u' hu' _; simp [Game.Reset] at hu'
    · intro u' hu' _; simp [Game.Reset] at hu'
  · exact evolves_rfl hg

theorem step_evolves {g g' : Game} (hg : GInv g) (h : Step g g') : Evolves g g' := by
  cases h with
  | update dt hdt g => exact evolves_gameUpdate hg dt
  | spawn t g => exact evolves_spawnUnitCmd hg t
  | freeze g => exact evolves_activateFreeze hg
  | start g => exact evolves_pressStart hg
  | restart g => exact evolves_pressR hg

theorem ginv_initGame : GInv initGame := by
  refine ⟨?_, ?_, ?_, ?_, ?_⟩ <;> simp [initGame, mkTower, TOWER_DAMAGE]

/-- Every reachable state satisfies the global invariant. -/
theorem reachable_ginv {g : Game} (h : Reachable g) : GInv g := by
  induction h with
  | init => exact ginv_initGame
  | step hr hs ih => exact (step_evolves ih hs).1

/-! ### Claim C1 -/

/-- The claim as stated by the spec: for every unit at every reachable point
of the simulation, `currentHealth ≤ maxHealth` and `alive ⇔ currentHealth > 0`,
and deadness is permanent across every simulation step. -/
def C1Claim : Prop :=
  (∀ g, Reachable g → ∀ u ∈ g.units,
      u.currentHP ≤ u.maxHP ∧ (u.isAlive = true ↔ 0 < u.currentHP)) ∧
  (∀ g g', Reachable g → Step g g' → NoRevive g g')

/-- A concrete reachable state violating `alive → health > 0`: start the
match and run 48 ticks of 0.625 s.  Wave 1's first knight walks into the
player tower's range and the tower's sixth 50-damage hit brings it to exactly
0 health — but `Game::HandleTowerAttacks` never updates `isAlive`, so the
knight is alive at 0 HP. -/
def c1BadState : Game := iterUpdate 48 (5/8) (PressStart initGame)

theorem c1BadState_reachable : Reachable c1BadState :=
  reachable_iterUpdate (by norm_num) 48 (Reachable.init.step (Step.start _))

/-- Counterexample to C1: in `c1BadState` some unit is alive at `≤ 0` health
(tower attacks reduce health without ever marking the target dead). -/
theorem c1_counterexample : ¬ C1Claim := by
  intro h
  have hb : c1BadState.units.any (fun u => u.isAlive && decide (u.currentHP ≤ 0)) = true := by
    decide!
  obtain ⟨u, hu, hprop⟩ := List.any_eq_true.mp hb
  rw [Bool.and_eq_true, decide_eq_true_iff] at hprop
  have h2 := (h.1 c1BadState c1BadState_reachable u hu).2
  have := h2.mp hprop.1
  omega

/-- C1 (amended): at every reachable point every unit has
`currentHealth ≤ maxHealth`, a dead unit has `currentHealth ≤ 0`, and once
`alive` is false it never reverts across any simulation step.  (The converse
direction `alive → currentHealth > 0` is refuted by `c1_counterexample`:
wizard splash damage and tower attacks reduce health without updating the
`alive` flag.) -/
theorem c1_health_invariant :
    (∀ g, Reachable g → ∀ u ∈ g.units,
        u.currentHP ≤ u.maxHP ∧ (u.isAlive = false → u.currentHP ≤ 0)) ∧
    (∀ g g', Reachable g → Step g g' → NoRevive g g') := by
  constructor
  · intro g hr u hu
    have hg := reachable_ginv hr
    exact ⟨(hg.1 u hu).1, (hg.1 u hu).2.1⟩
  · intro g g' hr hs
    exact (step_evolves (reachable_ginv hr) hs).2.1

/-- Witness for `c1_health_invariant` at a concrete reachable state holding
one freshly spawned knight. -/
theorem c1_health_invariant_witness :
    (mkUnit 0 .KNIGHT true).currentHP ≤ (mkUnit 0 .KNIGHT true).maxHP ∧
    ((mkUnit 0 .KNIGHT true).isAlive = false → (mkUnit 0 .KNIGHT true).currentHP ≤ 0) := by
  have hr : Reachable (SpawnUnit .KNIGHT (PressStart initGame)) :=
    (Reachable.init.step (Step.start _)).step (Step.spawn _ _)
  have hmem : mkUnit 0 .KNIGHT true ∈ (SpawnUnit .KNIGHT (PressStart initGame)).units := by
    decide!
  exact c1_health_invariant.1 _ hr _ hmem

/-! ### Lookup lemmas for single-unit mutation -/

theorem find?_map_of_id {f : GUnit → GUnit} (hid : ∀ u, (f u).id = u.id) (j : Nat) :
    ∀ l : List GUnit,
      (l.map f).find? (fun u => u.id == j) = (l.find? (fun u => u.id == j)).map f := by
  intro l
  induction l with
  | nil => rfl
  | cons x xs ih =>
    simp only [List.map_cons, List.find?]
    rw [hid x]
    cases h : (x.id == j) <;> simp [h, ih]

theorem findUnit_modifyUnit (g : Game) (i : Nat) (f : GUnit → GUnit)
    (hid : ∀ u, (f u).id = u.id) (j : Nat) :
    (g.modifyUnit i f).findUnit j =
      (g.findUnit j).map (fun u => if u.id = i then f u else u) := by
  unfold Game.findUnit Game.modifyUnit
  exact find?_map_of_id (fun u => by by_cases h : u.id = i <;> simp [h, hid]) j g.units

/-- A living frozen unit's `Unit::Update` only reruns its freeze timer. -/
theorem unitUpdate_frozen (dt : ℚ) {g : Game} {i : Nat} {u : GUnit}
    (hf : g.findUnit i = some u) (halive : u.isAlive = true) (hfrozen : u.isFrozen = true) :
    Unit.update dt i g = g.modifyUnit i (fun v =>
      let ft := v.freezeTimer - dt
      { v with freezeTimer := ft, isFrozen := if ft ≤ 0 then false else v.isFrozen }) := by
  unfold Unit.update
  rw [hf]
  dsimp only
  rw [if_neg (by rw [halive]; simp), if_pos hfrozen]

/-- Looking up the frozen unit after its frozen tick. -/
theorem unitUpdate_frozen_find (dt : ℚ) {g : Game} {i : Nat} {u : GUnit}
    (hf : g.findUnit i = some u) (halive : u.isAlive = true) (hfrozen : u.isFrozen = true) :
    (Unit.update dt i g).findUnit i = some
      { u with freezeTimer := u.freezeTimer - dt,
               isFrozen := if u.freezeTimer - dt ≤ 0 then false else u.isFrozen } := by
  rw [unitUpdate_frozen dt hf halive hfrozen,
      findUnit_modifyUnit g i (fun v =>
        let ft := v.freezeTimer - dt
        { v with freezeTimer := ft, isFrozen := if ft ≤ 0 then false else v.isFrozen })
        (fun v => rfl) i, hf]
  simp only [Option.map_some']
  rw [if_pos (findUnit_id hf)]

/-! ### Claim C4 -/

/-- C4: (a) activating freeze while it is available and the match is Playing
sets `isFrozen` with the full `FREEZE_DURATION` on every living enemy unit and
leaves every player unit untouched; (b) a frozen living unit's tick — with no
assumption on its freeze timer, so in particular also the tick the timer
reaches zero — changes neither its position nor its attack timer (nor its
path, target, or any other unit). -/
theorem c4_freeze :
    (∀ g : Game, g.currentState = .PLAYING → g.freezeAvailable = true →
      (∀ v ∈ (ActivateFreeze g).units, v.isPlayer = false → v.isAlive = true →
          v.isFrozen = true ∧ v.freezeTimer = FREEZE_DURATION) ∧
      (∀ u ∈ g.units, u.isPlayer = true → u ∈ (ActivateFreeze g).units)) ∧
    (∀ (g : Game) (dt : ℚ) (i : Nat) (u : GUnit), g.findUnit i = some u →
      u.isAlive = true → u.isFrozen = true →
      ∃ u', (Unit.update dt i g).findUnit i = some u' ∧
        u'.position = u.position ∧ u'.attackTimer = u.attackTimer ∧
        u'.path = u.path ∧ u'.target = u.target ∧
        (∀ v ∈ g.units, v.id ≠ i → v ∈ (Unit.update dt i g).units)) := by
  constructor
  · intro g hplay havail
    have hform : (ActivateFreeze g).units = g.units.map (fun u =>
        if !u.isPlayer ∧ u.isAlive then
          { u with isFrozen := true, freezeTimer := FREEZE_DURATION }
        else u) := by
      unfold ActivateFreeze
      rw [if_neg (by rw [hplay]; simp), if_neg (by rw [havail]; simp)]
    constructor
    · intro v hv hvp hva
      rw [hform] at hv
      obtain ⟨w, hwm, rfl⟩ := List.mem_map.mp hv
      by_cases hc : !w.isPlayer ∧ w.isAlive
      · rw [if_pos hc]
        exact ⟨rfl, rfl⟩
      · rw [if_neg hc] at hvp hva ⊢
        exact absurd ⟨by rw [hvp]; rfl, hva⟩ hc
    · intro u hu hup
      rw [hform]
      refine List.mem_map.mpr ⟨u, hu, ?_⟩
      rw [if_neg (by rw [hup]; simp)]
  · intro g dt i u hf halive hfrozen
    refine ⟨_, unitUpdate_frozen_find dt hf halive hfrozen, rfl, rfl, rfl, rfl, ?_⟩
    intro v hv hvi
    rw [unitUpdate_frozen dt hf halive hfrozen]
    unfold Game.modifyUnit
    refine List.mem_map.mpr ⟨v, hv, ?_⟩
    rw [if_neg hvi]

/-- A concrete Playing state with one enemy knight and one player archer. -/
def c4Demo : Game :=
  { initGame with currentState := .PLAYING,
                  units := [mkUnit 0 .KNIGHT false, mkUnit 1 .ARCHER true], nextId := 2 }

/-- `c4Demo` after activating freeze. -/
def c4Frozen : Game := ActivateFreeze c4Demo

/-- The frozen enemy knight of `c4Frozen`. -/
def c4FrozenKnight : GUnit :=
  { mkUnit 0 .KNIGHT false with isFrozen := true, freezeTimer := FREEZE_DURATION }

theorem c4_freeze_witness :
    (c4FrozenKnight.isFrozen = true ∧ c4FrozenKnight.freezeTimer = FREEZE_DURATION) ∧
    (∃ u', (Unit.update 1 0 c4Frozen).findUnit 0 = some u' ∧
      u'.position = c4FrozenKnight.position ∧ u'.attackTimer = c4FrozenKnight.attackTimer ∧
      u'.path = c4FrozenKnight.path ∧ u'.target = c4FrozenKnight.target ∧
      (∀ v ∈ c4Frozen.units, v.id ≠ 0 → v ∈ (Unit.update 1 0 c4Frozen).units)) := by
  constructor
  · exact (c4_freeze.1 c4Demo rfl rfl).1 c4FrozenKnight (by decide!) (by decide!) (by decide!)
  · exact c4_freeze.2 c4Frozen 1 0 c4FrozenKnight (by decide!) (by decide!) (by decide!)

/-! ### Claim C5 -/

/-- A Playing state mid-tick: knight 0 has died (0 HP, not alive) after the
player tower's target queue was built, so the matured queue still references
it; archer 1 is a living player unit. -/
def c5DeadKnight : GUnit := { mkUnit 0 .KNIGHT false with currentHP := 0, isAlive := false }

/-- The player tower of `c5Bad`: timer matured, stale queue holding knight 0. -/
def c5Tower : Tower := { mkTower true with attackTimer := 2, targetQueue := [(0, 250)] }

def c5Bad : Game :=
  { initGame with
      currentState := .PLAYING,
      units := [c5DeadKnight, mkUnit 1 .ARCHER true],
      playerTower := c5Tower,
      nextId := 2 }

/-- C5: a unit attack against a dead target is a silent no-op
(`Unit::Attack` checks `isAlive` and returns), but a tower attack resolved
against a queued target that has since died is NOT a no-op:
`Game::HandleTowerAttacks` has no aliveness check, and at `c5Bad` it reduces
the dead knight's health by the tower's damage, from 0 to −50 (in C++, had the
dead unit already been erased, this would dereference a freed pointer). -/
theorem c5_dead_target :
    (Unit.attack 1 0 c5Bad = c5Bad) ∧
    (HandleTowerAttacks c5Bad).findUnit 0 =
      some { c5DeadKnight with currentHP := -50 } := by
  constructor <;> decide!

/-! ### Claim C10 -/

theorem laneEndCheck_units (i : Nat) (g : Game) : (laneEndCheck i g).units = g.units := by
  unfold laneEndCheck
  cases hf : g.findUnit i with
  | none => rfl
  | some u =>
    dsimp only
    split
    · split <;> rfl
    · split
      · split <;> rfl
      · rfl

/-- C10: in the unit loop, a living frozen unit inside the 60-unit lane-end
band still deals its full damage to the opposing tower during its loop
iteration (health clamped at 0): the freeze short-circuit suppresses movement
and attack-timer accumulation inside `Unit::Update` (position and timer are
unchanged), but the lane-end check sits outside that update and is not gated
on `isFrozen`. -/
theorem c10_frozen_chip :
    ∀ (g : Game) (dt : ℚ) (i : Nat) (u : GUnit), g.findUnit i = some u →
      u.isAlive = true → u.isFrozen = true →
      (u.isPlayer = true → u.position ≥ g.enemyTower.position - 60 →
        (processOneUnit dt i g).enemyTower.currentHP =
          (if g.enemyTower.currentHP - u.damage ≤ 0 then 0
           else g.enemyTower.currentHP - u.damage)) ∧
      (u.isPlayer = false → u.position ≤ g.playerTower.position + 60 →
        (processOneUnit dt i g).playerTower.currentHP =
          (if g.playerTower.currentHP - u.damage ≤ 0 then 0
           else g.playerTower.currentHP - u.damage)) ∧
      ∃ u', (processOneUnit dt i g).findUnit i = some u' ∧
        u'.position = u.position ∧ u'.attackTimer = u.attackTimer := by
  intro g dt i u hf halive hfrozen
  have hfind := unitUpdate_frozen_find dt hf halive hfrozen
  have htow_e : (Unit.update dt i g).enemyTower = g.enemyTower := by
    rw [unitUpdate_frozen dt hf halive hfrozen]; rfl
  have htow_p : (Unit.update dt i g).playerTower = g.playerTower := by
    rw [unitUpdate_frozen dt hf halive hfrozen]; rfl
  refine ⟨?_, ?_, ?_⟩
  · intro hp hband
    unfold processOneUnit laneEndCheck
    rw [hfind]
    dsimp only
    rw [htow_e]
    rw [if_pos (show u.isPlayer = true ∧ u.position ≥ g.enemyTower.position - 60 from ⟨hp, hband⟩)]
    by_cases hc : g.enemyTower.currentHP - u.damage ≤ 0
    · rw [if_pos hc, if_pos hc]
    · rw [if_neg hc, if_neg hc]
  · intro hp hband
    unfold processOneUnit laneEndCheck
    rw [hfind]
    dsimp only
    rw [htow_e, htow_p]
    rw [if_neg (show ¬(u.isPlayer = true ∧ u.position ≥ g.enemyTower.position - 60) from
          fun hcon => by rw [hp] at hcon; exact Bool.false_ne_true hcon.1)]
    rw [if_pos (show (!u.isPlayer) = true ∧ u.position ≤ g.playerTower.position + 60 from
          ⟨by rw [hp]; rfl, hband⟩)]
    by_cases hc : g.playerTower.currentHP - u.damage ≤ 0
    · rw [if_pos hc, if_pos hc]
    · rw [if_neg hc, if_neg hc]
  · refine ⟨{ u with freezeTimer := u.freezeTimer - dt, isFrozen := if u.freezeTimer - dt ≤ 0 then false else u.isFrozen }, ?_, rfl, rfl⟩
    show (processOneUnit dt i g).findUnit i = _
    unfold processOneUnit Game.findUnit
    rw [laneEndCheck_units]
    exact hfind

/-! ### Claim C3 -/

theorem findUnit_units_map (g : Game) (f : GUnit → GUnit)
    (hid : ∀ u, (f u).id = u.id) (j : Nat) :
    (({ g with units := g.units.map f } : Game)).findUnit j = (g.findUnit j).map f := by
  unfold Game.findUnit
  exact find?_map_of_id hid j g.units

/-- What `Unit::Attack` does to the attacker's unit: if the target's health
drops to `≤ 0`, the target is marked dead and the attacker's target pointer is
cleared; otherwise the attacker's unit is untouched (its splash loop excludes
the attacker's own side). -/
theorem attack_attacker_outcome {g : Game} {i j : Nat} {u t : GUnit} (hij : i ≠ j)
    (hfi : g.findUnit i = some u) (hfj : g.findUnit j = some t) (htalive : t.isAlive = true) :
    (¬(t.currentHP - u.damage ≤ 0) ∧ (Unit.attack i j g).findUnit i = some u) ∨
    ((Unit.attack i j g).findUnit i = some { u with target := none } ∧
      ∀ t', (Unit.attack i j g).findUnit j = some t' → t'.isAlive = false) := by
  have hui : u.id = i := findUnit_id hfi
  have hti : t.id = j := findUnit_id hfj
  unfold Unit.attack
  rw [hfi, hfj]
  dsimp only
  rw [if_neg (by rw [htalive]; simp)]
  have hfi1 : (g.modifyUnit j fun v => { v with currentHP := v.currentHP - u.damage }).findUnit i
      = some u := by
    rw [findUnit_modifyUnit _ j (fun v => { v with currentHP := v.currentHP - u.damage })
        (fun v => rfl) i, hfi]
    simp only [Option.map_some']
    rw [if_neg (by rw [hui]; exact hij)]
  set G1 := g.modifyUnit j fun v => { v with currentHP := v.currentHP - u.damage } with hG1
  by_cases hwiz : u.type = .WIZARD
  case pos =>
    rw [if_pos hwiz]
    set G2 : Game := { G1 with units := G1.units.map (fun w =>
        if w.isAlive ∧ w.id ≠ j ∧ w.isPlayer ≠ u.isPlayer ∧
            CalculateDistance w.position t.position < 60 then
          { w with currentHP := w.currentHP - u.damage.tdiv 2 }
        else w) } with hG2
    have hfi2 : G2.findUnit i = some u := by
      rw [hG2, findUnit_units_map G1 (fun w =>
          if w.isAlive ∧ w.id ≠ j ∧ w.isPlayer ≠ u.isPlayer ∧
              CalculateDistance w.position t.position < 60 then
            { w with currentHP := w.currentHP - u.damage.tdiv 2 }
          else w) (fun v => by dsimp only; split <;> rfl) i, hfi1]
      simp only [Option.map_some']
      rw [if_neg (fun hc => False.elim (hc.2.2.1 rfl))]
    have hfj2id : ∀ t₂, G2.findUnit j = some t₂ → t₂.id = j := fun t₂ h => findUnit_id h
    by_cases hkill : t.currentHP - u.damage ≤ 0
    · rw [if_pos hkill]
      refine Or.inr ⟨?_, ?_⟩
      · rw [findUnit_modifyUnit _ i (fun v => { v with target := none }) (fun v => rfl) i,
            findUnit_modifyUnit _ j (fun v => { v with isAlive := false }) (fun v => rfl) i,
            hfi2]
        simp only [Option.map_some']
        have hk : (if u.id = j then ({ u with isAlive := false } : GUnit) else u) = u :=
          if_neg (by rw [hui]; exact hij)
        rw [hk, if_pos hui]
      · intro t' ht'
        rw [findUnit_modifyUnit _ i (fun v => { v with target := none }) (fun v => rfl) j,
            findUnit_modifyUnit _ j (fun v => { v with isAlive := false }) (fun v => rfl) j] at ht'
        cases hfj2 : G2.findUnit j with
        | none => rw [hfj2] at ht'; exact absurd ht' (by simp)
        | some t₂ =>
          rw [hfj2] at ht'
          simp only [Option.map_some'] at ht'
          have ht₂j : t₂.id = j := hfj2id t₂ hfj2
          have ht'eq := Option.some.inj ht'
          have hk : (if t₂.id = j then ({ t₂ with isAlive := false } : GUnit) else t₂) =
              { t₂ with isAlive := false } := if_pos ht₂j
          rw [hk] at ht'eq
          rw [if_neg (show ¬(({ t₂ with isAlive := false } : GUnit).id = i) from
                by dsimp only; rw [ht₂j]; exact fun hc => hij hc.symm)] at ht'eq
          rw [← ht'eq]
    · rw [if_neg hkill]
      exact Or.inl ⟨hkill, hfi2⟩
  case neg =>
    rw [if_neg hwiz]
    have hfj1id : ∀ t₂, G1.findUnit j = some t₂ → t₂.id = j := fun t₂ h => findUnit_id h
    by_cases hkill : t.currentHP - u.damage ≤ 0
    · rw [if_pos hkill]
      refine Or.inr ⟨?_, ?_⟩
      · rw [findUnit_modifyUnit _ i (fun v => { v with target := none }) (fun v => rfl) i,
            findUnit_modifyUnit _ j (fun v => { v with isAlive := false }) (fun v => rfl) i,
            hfi1]
        simp only [Option.map_some']
        have hk : (if u.id = j then ({ u with isAlive := false } : GUnit) else u) = u :=
          if_neg (by rw [hui]; exact hij)
        rw [hk, if_pos hui]
      · intro t' ht'
        rw [findUnit_modifyUnit _ i (fun v => { v with target := none }) (fun v => rfl) j,
            findUnit_modifyUnit _ j (fun v => { v with isAlive := false }) (fun v => rfl) j] at ht'
        cases hfj2 : G1.findUnit j with
        | none => rw [hfj2] at ht'; exact absurd ht' (by simp)
        | some t₂ =>
          rw [hfj2] at ht'
          simp only [Option.map_some'] at ht'
          have ht₂j : t₂.id = j := hfj1id t₂ hfj2
          have ht'eq := Option.some.inj ht'
          have hk : (if t₂.id = j then ({ t₂ with isAlive := false } : GUnit) else t₂) =
              { t₂ with isAlive := false } := if_pos ht₂j
          rw [hk] at ht'eq
          rw [if_neg (show ¬(({ t₂ with isAlive := false } : GUnit).id = i) from
                by dsimp only; rw [ht₂j]; exact fun hc => hij hc.symm)] at ht'eq
          rw [← ht'eq]
    · rw [if_neg hkill]
      exact Or.inl ⟨hkill, hfi1⟩

/-- C3: the targeting asymmetry.  (a) A tower (while alive) recomputes its
full ranked target pool from scratch every tick: the pool after `Tower::Update`
is a function of the current unit collection alone — the previously stored
pool is irrelevant; (b) a unit holding a living (opposing) target keeps that
exact target through its tick — target selection does not re-run, no matter
what other units exist (in particular even if a strictly closer opposing unit
has appeared) — unless its own attack this tick kills the target, in which
case the pointer is cleared and the target is dead. -/
theorem c3_targeting_asymmetry :
    (∀ (dt : ℚ) (units : List GUnit) (t : Tower) (q : List (Nat × ℚ)), t.isAlive = true →
      (Tower.update dt units { t with targetQueue := q }).targetQueue =
        (Tower.update dt units t).targetQueue) ∧
    (∀ (dt : ℚ) (units : List GUnit) (t : Tower), t.isAlive = true →
      (Tower.update dt units t).targetQueue = UpdateTargetQueue t units) ∧
    (∀ (g : Game) (dt : ℚ) (i j : Nat) (u t : GUnit),
      g.findUnit i = some u → u.isAlive = true → u.target = some j →
      g.findUnit j = some t → t.isAlive = true → u.isPlayer ≠ t.isPlayer →
      ∃ u', (Unit.update dt i g).findUnit i = some u' ∧
        (u'.target = some j ∨ (u'.target = none ∧
          ∀ t', (Unit.update dt i g).findUnit j = some t' → t'.isAlive = false))) := by
  refine ⟨?_, ?_, ?_⟩
  · intro dt units t q halive
    unfold Tower.update
    rw [if_neg (show ¬(!(({ t with targetQueue := q } : Tower)).isAlive) = true by
          dsimp only; rw [halive]; simp),
        if_neg (show ¬(!t.isAlive) = true by rw [halive]; simp)]
    rfl
  · intro dt units t halive
    unfold Tower.update
    rw [if_neg (show ¬(!t.isAlive) = true by rw [halive]; simp)]
  · intro g dt i j u t hfi halive htarget hfj htalive hside
    have hij : i ≠ j := by
      intro he
      subst he
      rw [hfi] at hfj
      exact hside (congrArg GUnit.isPlayer (Option.some.inj hfj))
    have hui : u.id = i := findUnit_id hfi
    have htj : t.id = j := findUnit_id hfj
    by_cases hfz : u.isFrozen = true
    · exact ⟨_, unitUpdate_frozen_find dt hfi halive hfz, Or.inl htarget⟩
    · unfold Unit.update
      rw [hfi]
      dsimp only
      rw [if_neg (by rw [halive]; simp), if_neg hfz,
          if_neg (show ¬(g.targetInvalid u = true) by
            simp [Game.targetInvalid, htarget, hfj, htalive]),
          hfi]
      dsimp only
      rw [htarget]
      dsimp only
      rw [hfj]
      dsimp only
      rw [if_pos htalive]
      by_cases hdist : CalculateDistance u.position t.position ≤ u.attackRange
      · rw [if_pos hdist]
        by_cases htimer : u.attackTimer + dt ≥ u.attackRate
        · rw [if_pos htimer]
          -- attack fires
          have hfium : (g.modifyUnit i fun v => { v with attackTimer := u.attackTimer + dt }).findUnit i
              = some { u with attackTimer := u.attackTimer + dt } := by
            rw [findUnit_modifyUnit _ i (fun v => { v with attackTimer := u.attackTimer + dt })
                (fun v => rfl) i, hfi]
            simp only [Option.map_some']
            rw [if_pos hui]
          have hfjt : (g.modifyUnit i fun v => { v with attackTimer := u.attackTimer + dt }).findUnit j
              = some t := by
            rw [findUnit_modifyUnit _ i (fun v => { v with attackTimer := u.attackTimer + dt })
                (fun v => rfl) j, hfj]
            simp only [Option.map_some']
            rw [if_neg (by rw [htj]; exact fun hc => hij hc.symm)]
          rcases attack_attacker_outcome hij hfium hfjt htalive with ⟨-, hatt⟩ | ⟨hatt, hdead⟩
          · refine ⟨{ u with attackTimer := 0 }, ?_, Or.inl htarget⟩
            rw [findUnit_modifyUnit _ i (fun v => { v with attackTimer := 0 }) (fun v => rfl) i,
                hatt]
            simp only [Option.map_some']
            rw [if_pos hui]
          · refine ⟨{ u with target := none, attackTimer := 0 }, ?_, Or.inr ⟨rfl, ?_⟩⟩
            · rw [findUnit_modifyUnit _ i (fun v => { v with attackTimer := 0 }) (fun v => rfl) i,
                  hatt]
              simp only [Option.map_some']
              rw [if_pos hui]
            · intro t' ht'
              rw [findUnit_modifyUnit _ i (fun v => { v with attackTimer := 0 }) (fun v => rfl) j] at ht'
              cases hfj3 : (Unit.attack i j
                  (g.modifyUnit i fun v => { v with attackTimer := u.attackTimer + dt })).findUnit j with
              | none => rw [hfj3] at ht'; exact absurd ht' (by simp)
              | some t₂ =>
                rw [hfj3] at ht'
                simp only [Option.map_some'] at ht'
                have ht₂j : t₂.id = j := findUnit_id hfj3
                have ht₂dead := hdead t₂ hfj3
                have ht'eq := Option.some.inj ht'
                rw [if_neg (by rw [ht₂j]; exact fun hc => hij hc.symm)] at ht'eq
                rw [← ht'eq]
                exact ht₂dead
        · rw [if_neg htimer]
          refine ⟨{ u with attackTimer := u.attackTimer + dt }, ?_, Or.inl htarget⟩
          rw [findUnit_modifyUnit _ i (fun v => { v with attackTimer := u.attackTimer + dt })
              (fun v => rfl) i, hfi]
          simp only [Option.map_some']
          rw [if_pos hui]
      · rw [if_neg hdist]
        refine ⟨{ FollowPath dt u with attackTimer := 0 }, ?_, Or.inl ?_⟩
        · rw [findUnit_modifyUnit _ i (fun v => { v with attackTimer := 0 }) (fun v => rfl) i,
              findUnit_modifyUnit _ i (FollowPath dt) (fun v => (FollowPath_fields dt v).1) i,
              hfi]
          simp only [Option.map_some']
          rw [if_pos hui, if_pos (by rw [(FollowPath_fields dt u).1]; exact hui)]
        · show (FollowPath dt u).target = some j
          rw [(FollowPath_fields dt u).2.2.2.2.2.1]
          exact htarget

/-- Player knight already locked on enemy unit 1. -/
def c3Attacker : GUnit := { mkUnit 0 .KNIGHT true with position := 400, target := some 1 }

/-- The locked-on enemy, far away and alive. -/
def c3Victim : GUnit := { mkUnit 1 .KNIGHT false with position := 600 }

/-- A strictly closer enemy that a re-ranking would prefer; the sticky target
must survive its presence. -/
def c3Closer : GUnit := { mkUnit 2 .KNIGHT false with position := 401 }

def c3Demo : Game :=
  { initGame with
      currentState := .PLAYING,
      units := [c3Attacker, c3Victim, c3Closer],
      nextId := 3 }

theorem c3_targeting_asymmetry_witness :
    ((Tower.update 1 c3Demo.units { mkTower true with targetQueue := [(5, 5)] }).targetQueue =
      (Tower.update 1 c3Demo.units (mkTower true)).targetQueue) ∧
    ∃ u', (Unit.update 1 0 c3Demo).findUnit 0 = some u' ∧
      (u'.target = some 1 ∨ (u'.target = none ∧
        ∀ t', (Unit.update 1 0 c3Demo).findUnit 1 = some t' → t'.isAlive = false)) := by
  constructor
  · exact c3_targeting_asymmetry.1 1 c3Demo.units (mkTower true) [(5, 5)] (by decide!)
  · exact c3_targeting_asymmetry.2.2 c3Demo 1 0 1 c3Attacker c3Victim
      (by decide!) (by decide!) (by decide!) (by decide!) (by decide!) (by decide!)

/-- A frozen enemy knight standing inside the player tower's 60-unit band. -/
def c10FrozenKnight : GUnit :=
  { mkUnit 0 .KNIGHT false with position := 100, isFrozen := true, freezeTimer := 2 }

def c10Demo : Game :=
  { initGame with
      currentState := .PLAYING,
      units := [c10FrozenKnight],
      nextId := 1 }

theorem c10_frozen_chip_witness :
    (processOneUnit (1/4) 0 c10Demo).playerTower.currentHP =
      (if c10Demo.playerTower.currentHP - c10FrozenKnight.damage ≤ 0 then 0
       else c10Demo.playerTower.currentHP - c10FrozenKnight.damage) ∧
    ∃ u', (processOneUnit (1/4) 0 c10Demo).findUnit 0 = some u' ∧
      u'.position = c10FrozenKnight.position ∧ u'.attackTimer = c10FrozenKnight.attackTimer := by
  obtain ⟨h1, h2, h3⟩ :=
    c10_frozen_chip c10Demo (1/4) 0 c10FrozenKnight (by decide!) (by decide!) (by decide!)
  exact ⟨h2 (by decide!) (by decide!), h3⟩

/-! ### Claim C6 -/

/-- C6: `SpawnUnit` while Playing with sufficient elixir deducts exactly the
cost and appends exactly one living player-side unit of the requested type at
full spec health with the default path toward the enemy tower; while not
Playing, or with insufficient elixir, it leaves the whole state unchanged.
Concretely for a Knight: cost 3, health 300, so 5 elixir becomes 2. -/
theorem c6_spawnUnit :
    (∀ (g : Game) (t : UnitType), g.currentState = .PLAYING →
      (getUnitStats t).cost ≤ g.playerElixir →
      (SpawnUnit t g).playerElixir = g.playerElixir - (getUnitStats t).cost ∧
      (SpawnUnit t g).units = g.units ++ [mkUnit g.nextId t true] ∧
      (mkUnit g.nextId t true).isPlayer = true ∧
      (mkUnit g.nextId t true).isAlive = true ∧
      (mkUnit g.nextId t true).type = t ∧
      (mkUnit g.nextId t true).currentHP = (getUnitStats t).hp ∧
      (mkUnit g.nextId t true).currentHP = (mkUnit g.nextId t true).maxHP ∧
      (mkUnit g.nextId t true).path = generatePath true ∧
      (SpawnUnit t g).currentState = g.currentState ∧
      (SpawnUnit t g).playerTower = g.playerTower ∧
      (SpawnUnit t g).enemyTower = g.enemyTower ∧
      (SpawnUnit t g).waves = g.waves ∧
      (SpawnUnit t g).gameTimer = g.gameTimer) ∧
    (∀ (g : Game) (t : UnitType), g.currentState ≠ .PLAYING → SpawnUnit t g = g) ∧
    (∀ (g : Game) (t : UnitType), g.playerElixir < (getUnitStats t).cost → SpawnUnit t g = g) ∧
    (∀ g : Game, g.currentState = .PLAYING → g.playerElixir = 5 →
      (SpawnUnit .KNIGHT g).playerElixir = 2 ∧
      (getUnitStats .KNIGHT).cost = 3 ∧ (getUnitStats .KNIGHT).hp = 300) := by
  have hpos : ∀ (g : Game) (t : UnitType), g.currentState = .PLAYING →
      (getUnitStats t).cost ≤ g.playerElixir →
      SpawnUnit t g = { g with units := g.units ++ [mkUnit g.nextId t true],
                               playerElixir := g.playerElixir - (getUnitStats t).cost,
                               nextId := g.nextId + 1 } := by
    intro g t hplay hcost
    unfold SpawnUnit
    rw [if_neg (by rw [hplay]; simp), if_pos hcost]
  refine ⟨?_, ?_, ?_, ?_⟩
  · intro g t hplay hcost
    rw [hpos g t hplay hcost]
    refine ⟨rfl, rfl, rfl, rfl, rfl, rfl, rfl, rfl, rfl, rfl, rfl, rfl, rfl⟩
  · intro g t hplay
    unfold SpawnUnit
    rw [if_pos hplay]
  · intro g t hcost
    unfold SpawnUnit
    split
    · rfl
    · dsimp only
      rw [if_neg (by exact fun hc => absurd hcost (not_lt.mpr hc))]
  · intro g hplay h5
    refine ⟨?_, rfl, rfl⟩
    rw [hpos g .KNIGHT hplay (by rw [h5]; norm_num [getUnitStats])]
    show g.playerElixir - (getUnitStats .KNIGHT).cost = 2
    rw [h5]
    norm_num [getUnitStats]

theorem c6_spawnUnit_witness :
    (SpawnUnit .KNIGHT (PressStart initGame)).playerElixir = 2 ∧
    SpawnUnit .GIANT ({ initGame with currentState := .PLAYING, playerElixir := 4 }) =
      { initGame with currentState := .PLAYING, playerElixir := 4 } ∧
    SpawnUnit .KNIGHT initGame = initGame := by
  refine ⟨(c6_spawnUnit.2.2.2 (PressStart initGame) rfl rfl).1, ?_, ?_⟩
  · exact c6_spawnUnit.2.2.1 _ .GIANT (by decide!)
  · exact c6_spawnUnit.2.1 initGame .KNIGHT (by decide!)

/-! ### Claim C2 -/

theorem fabs_sub_comm (x y : ℚ) : fabs (x - y) = fabs (y - x) := by
  rw [fabs_eq_abs, fabs_eq_abs, abs_sub_comm]

/-- The claim's global targeting property: the chosen target is at least as
close as every other candidate, except that within the 10-unit epsilon band it
must instead be (weakly) lowest in health — otherwise that lower-health
candidate would have been chosen. -/
def C2Prop (u : GUnit) (allUnits : List GUnit) : Prop :=
  ∀ j, FindTargetWithPriority u allUnits = some j →
    ∃ p ∈ unitCandidates u allUnits, p.1.id = j ∧
      ∀ q ∈ unitCandidates u allUnits, q.1.id ≠ j →
        (if fabs (q.2 - p.2) < 10 then p.1.currentHP ≤ q.1.currentHP else p.2 ≤ q.2)

/-- The requesting knight of the C2 counterexample, at x = 500. -/
def c2Requester : GUnit := { mkUnit 0 .KNIGHT true with position := 500 }

/-- Candidate at distance 0 with 100 HP. -/
def c2A : GUnit := { mkUnit 1 .KNIGHT false with position := 500, currentHP := 100 }

/-- Candidate at distance 9 (inside the band around A) with 50 HP. -/
def c2B : GUnit := { mkUnit 2 .KNIGHT false with position := 509, currentHP := 50 }

/-- Candidate at distance 17 (inside B's band, outside A's) with 10 HP. -/
def c2C : GUnit := { mkUnit 3 .KNIGHT false with position := 517, currentHP := 10 }

def c2Units : List GUnit := [c2A, c2B, c2C]

/-- Counterexample to C2: with the three candidates above the 10-unit band is
not transitive (0 ~ 9 ~ 17 but 0 ≁ 17), the comparator is not a strict weak
ordering, and the sort's front element is A (distance 0, 100 HP) even though B
sits within 10 units of it with strictly lower health — the claim demands B. -/
theorem c2_counterexample : ¬ ∀ (u : GUnit) (allUnits : List GUnit), C2Prop u allUnits := by
  intro h
  obtain ⟨p, hp, hpid, hall⟩ := h c2Requester c2Units 1 (by decide!)
  have hcand : unitCandidates c2Requester c2Units = [(c2A, 0), (c2B, 9), (c2C, 17)] := by
    decide!
  rw [hcand] at hp hall
  fin_cases hp
  · have hB := hall (c2B, 9) (by simp) (by decide!)
    exact absurd hB (by decide!)
  · exact absurd hpid (by decide!)
  · exact absurd hpid (by decide!)

/-- C2 (amended): the choice is the front of the sort under the pairwise
comparator "closer first, lower HP first within the 10-unit band".  Whenever a
requesting combatant has at most two candidates in its search radius, this
satisfies the claim's global property (and some target is chosen when any
candidate exists); with three or more candidates the non-transitive epsilon
band can defeat the global property (see `c2_counterexample`). -/
theorem c2_targeting_pairwise :
    ∀ (u : GUnit) (allUnits : List GUnit),
      (unitCandidates u allUnits).length ≤ 2 →
      (unitCandidates u allUnits ≠ [] → ∃ j, FindTargetWithPriority u allUnits = some j) ∧
      C2Prop u allUnits := by
  intro u allUnits hlen
  rcases hl : unitCandidates u allUnits with _ | ⟨a, _ | ⟨b, _ | ⟨c, rest⟩⟩⟩
  · constructor
    · intro hne; exact absurd rfl hne
    · intro j hj
      unfold FindTargetWithPriority at hj
      rw [hl] at hj
      exact absurd hj (by simp [sortByCmp])
  · constructor
    · intro _
      refine ⟨a.1.id, ?_⟩
      unfold FindTargetWithPriority
      rw [hl]
      rfl
    · intro j hj
      unfold FindTargetWithPriority at hj
      rw [hl] at hj
      simp only [sortByCmp, insertSorted] at hj
      have hja : j = a.1.id := (Option.some.inj hj).symm
      refine ⟨a, by rw [hl]; simp, hja.symm, ?_⟩
      intro q hq hqj
      rw [hl, List.mem_singleton] at hq
      rw [hq] at hqj
      exact absurd hja.symm hqj
  · constructor
    · intro _
      unfold FindTargetWithPriority
      rw [hl]
      simp only [sortByCmp, insertSorted]
      by_cases hc : targetCmp a b = true
      · rw [if_pos hc]; exact ⟨a.1.id, rfl⟩
      · rw [if_neg hc]; exact ⟨b.1.id, rfl⟩
    · intro j hj
      unfold FindTargetWithPriority at hj
      rw [hl] at hj
      simp only [sortByCmp, insertSorted] at hj
      by_cases hc : targetCmp a b = true
      · rw [if_pos hc] at hj
        have hja : j = a.1.id := (Option.some.inj hj).symm
        refine ⟨a, by rw [hl]; simp, hja.symm, ?_⟩
        intro q hq hqj
        rw [hl] at hq
        simp only [List.mem_cons, List.not_mem_nil, or_false] at hq
        rcases hq with rfl | rfl
        · exact absurd hja.symm hqj
        · unfold targetCmp at hc
          by_cases hband : fabs (a.2 - q.2) < 10
          · rw [if_pos hband] at hc
            rw [if_pos (by rw [fabs_sub_comm]; exact hband)]
            exact (of_decide_eq_true hc).le
          · rw [if_neg hband] at hc
            rw [if_neg (by rw [fabs_sub_comm]; exact hband)]
            exact (of_decide_eq_true hc).le
      · rw [if_neg hc] at hj
        have hjb : j = b.1.id := (Option.some.inj hj).symm
        refine ⟨b, by rw [hl]; simp, hjb.symm, ?_⟩
        intro q hq hqj
        rw [hl] at hq
        simp only [List.mem_cons, List.not_mem_nil, or_false] at hq
        rcases hq with rfl | rfl
        · unfold targetCmp at hc
          by_cases hband : fabs (q.2 - b.2) < 10
          · rw [if_pos hband] at hc
            rw [if_pos hband]
            exact not_lt.mp (fun hlt => hc (decide_eq_true hlt))
          · rw [if_neg hband] at hc
            rw [if_neg hband]
            exact not_lt.mp (fun hlt => hc (decide_eq_true hlt))
        · exact absurd hjb.symm hqj
  · exfalso
    rw [hl] at hlen
    simp at hlen

theorem c2_targeting_pairwise_witness :
    (unitCandidates c2Requester [c2A, c2B] ≠ [] →
      ∃ j, FindTargetWithPriority c2Requester [c2A, c2B] = some j) ∧
    C2Prop c2Requester [c2A, c2B] :=
  c2_targeting_pairwise c2Requester [c2A, c2B] (by decide!)

/-! ### Claim C7 -/

theorem decayRate_eq_max (x : ℚ) : decayRate x = max 2 ((9/10) * x) := by
  rw [decayRate, fmax_eq_max, mul_comm]

/-- The closed form of the iterated decay. -/
theorem decayRate_iterate (x : ℚ) : ∀ n : Nat, decayRate^[n + 1] x = max 2 ((9/10) ^ (n + 1) * x) := by
  intro n
  induction n with
  | zero => simp [decayRate_eq_max]
  | succ n ih =>
    rw [Function.iterate_succ_apply', ih, decayRate_eq_max]
    rw [mul_comm ((9:ℚ)/10) (max 2 ((9/10) ^ (n + 1) * x)),
        max_mul_of_nonneg _ _ (by norm_num : (0:ℚ) ≤ 9/10)]
    rw [← max_assoc]
    have h1 : max (2:ℚ) (2 * (9/10)) = 2 := max_eq_left (by norm_num)
    rw [h1]
    ring_nf

/-- C7: on the tick that wraps the wave chain (spawning of the last wave
exhausted, no successor), every wave's spawnInterval becomes
`max(2.0, 0.9 * previous)` and the current wave becomes the first one;
furthermore the decay map is non-increasing from 2 upward, never produces a
value below 2, and from any start in `[2, 4]` (which covers all eight initial
spawn intervals) reaches exactly 2 within 7 cycles and stays there. -/
theorem c7_spawnInterval_decay :
    (∀ (g : Game) (dt : ℚ) (w : GameWave),
      g.waves[g.currentWaveIdx]? = some w → g.gameOver = false →
      g.isBetweenWaves = false →
      w.waveUnits[g.currentUnitTypeIndex]? = none →
      ¬(g.currentWaveIdx + 1 < g.waves.length) →
      (HandleWaveProgression dt g).waves = decayWaves g.waves ∧
      (HandleWaveProgression dt g).currentWaveIdx = 0) ∧
    (∀ (ws : List GameWave) (k : Nat) (w : GameWave), ws[k]? = some w →
      (decayWaves ws)[k]? = some { w with spawnRate := fmax 2 (w.spawnRate * (9/10)) }) ∧
    (∀ (x : ℚ) (n : Nat), 2 ≤ x → decayRate^[n + 1] x ≤ decayRate^[n] x) ∧
    (∀ (x : ℚ) (n : Nat), 1 ≤ n → 2 ≤ decayRate^[n] x) ∧
    (∀ (x : ℚ), 2 ≤ x → x ≤ 4 → ∀ n, 7 ≤ n → decayRate^[n] x = 2) ∧
    (∀ w ∈ initialWaves, 2 ≤ w.spawnRate ∧ w.spawnRate ≤ 4) := by
  refine ⟨?_, ?_, ?_, ?_, ?_, ?_⟩
  · intro g dt w hw hgo hbw hexh hlast
    unfold HandleWaveProgression
    rw [hw]
    dsimp only
    rw [if_neg (by rw [hgo]; simp), if_neg (by rw [hbw]; simp), hexh]
    dsimp only
    rw [if_neg hlast]
    exact ⟨rfl, rfl⟩
  · intro ws k w hk
    simp [decayWaves, List.getElem?_map, hk, decayRate]
  · intro x n h2
    induction n with
    | zero =>
      simp only [zero_add, Function.iterate_one, Function.iterate_zero, id]
      rw [decayRate_eq_max]
      exact max_le h2 (by linarith)
    | succ n ih =>
      rw [decayRate_iterate, decayRate_iterate]
      refine max_le (le_max_left _ _) (le_max_of_le_right ?_)
      have hx : (0:ℚ) ≤ x := by linarith
      have hp : ((9:ℚ)/10) ^ (n + 1 + 1) ≤ (9/10) ^ (n + 1) :=
        pow_le_pow_of_le_one (by norm_num) (by norm_num) (by omega)
      exact mul_le_mul_of_nonneg_right hp hx
  · intro x n hn
    obtain ⟨k, rfl⟩ : ∃ k, n = k + 1 := ⟨n - 1, by omega⟩
    rw [decayRate_iterate]
    exact le_max_left _ _
  · intro x h2 h4 n hn
    obtain ⟨k, rfl⟩ : ∃ k, n = k + 1 := ⟨n - 1, by omega⟩
    rw [decayRate_iterate]
    refine max_eq_left ?_
    have hx : (0:ℚ) ≤ x := by linarith
    calc ((9:ℚ)/10) ^ (k + 1) * x ≤ (9/10) ^ 7 * 4 := by
          refine mul_le_mul ?_ h4 hx (by positivity)
          exact pow_le_pow_of_le_one (by norm_num) (by norm_num) (by omega)
      _ ≤ 2 := by norm_num
  · intro w hw
    fin_cases hw <;> constructor <;> norm_num

theorem c7_spawnInterval_decay_witness :
    decayRate^[7] 4 = 2 ∧ decayRate^[1] (7/2) ≤ decayRate^[0] (7/2) ∧
    (2:ℚ) ≤ decayRate^[1] 4 := by
  refine ⟨c7_spawnInterval_decay.2.2.2.2.1 4 (by norm_num) (by norm_num) 7 (by norm_num),
          c7_spawnInterval_decay.2.2.1 (7/2) 0 (by norm_num),
          c7_spawnInterval_decay.2.2.2.1 4 1 (by norm_num)⟩

/-! ### Claim C8 -/

/-- The claim as stated: the wave pointer advances only on the tick a cooldown
countdown reaches `≤ 0`. -/
def C8Claim : Prop :=
  ∀ (g : Game) (dt : ℚ),
    (HandleWaveProgression dt g).currentWaveIdx ≠ g.currentWaveIdx →
    g.isBetweenWaves = true ∧ g.betweenWavesTimer - dt ≤ 0

/-- Counterexample to C8: a Playing state whose wave-1 composition is
exhausted advances the wave pointer on the very tick the cooldown *begins*
(with the full 10-second countdown still pending), not when it elapses. -/
theorem c8_counterexample : ¬ C8Claim := by
  intro h
  have := h { initGame with currentState := .PLAYING, currentUnitTypeIndex := 2 } 1 (by decide!)
  exact absurd this.1 (by decide!)

/-- C8 (amended): in Cooldown each tick only decrements the countdown, and at
`≤ 0` the sequencer re-enters Spawning with all per-wave counters reset but
with the wave pointer untouched — because the pointer was already advanced on
the tick the cooldown began: when a wave's composition is exhausted the
sequencer enters Cooldown and immediately moves to the successor wave,
wrapping from the last wave to wave 1 (with the decay applied).  In
particular, after wave 8 finishes spawning, its cooldown period runs with the
current wave already wave 1, and the first wave of the new cycle starts
spawning once it elapses. -/
theorem c8_wave_cooldown :
    (∀ (g : Game) (dt : ℚ) (w : GameWave),
      g.waves[g.currentWaveIdx]? = some w → g.gameOver = false →
      g.isBetweenWaves = true →
      (0 < g.betweenWavesTimer - dt →
        HandleWaveProgression dt g = { g with betweenWavesTimer := g.betweenWavesTimer - dt }) ∧
      (g.betweenWavesTimer - dt ≤ 0 →
        HandleWaveProgression dt g =
          { g with betweenWavesTimer := g.betweenWavesTimer - dt, isBetweenWaves := false,
                   waveSpawnTimer := 0, currentUnitTypeIndex := 0,
                   unitsSpawnedForCurrentType := 0 })) ∧
    (∀ (g : Game) (dt : ℚ) (w : GameWave),
      g.waves[g.currentWaveIdx]? = some w → g.gameOver = false →
      g.isBetweenWaves = false → w.waveUnits[g.currentUnitTypeIndex]? = none →
      (HandleWaveProgression dt g).isBetweenWaves = true ∧
      (HandleWaveProgression dt g).betweenWavesTimer = w.waveCooldown ∧
      (HandleWaveProgression dt g).currentWaveIdx =
        (if g.currentWaveIdx + 1 < g.waves.length then g.currentWaveIdx + 1 else 0)) ∧
    ((HandleWaveProgression 11 (HandleWaveProgression 1
        { initGame with currentState := .PLAYING, currentWaveIdx := 7,
                        currentUnitTypeIndex := 3 })).currentWaveIdx = 0 ∧
      (HandleWaveProgression 11 (HandleWaveProgression 1
        { initGame with currentState := .PLAYING, currentWaveIdx := 7,
                        currentUnitTypeIndex := 3 })).isBetweenWaves = false) := by
  refine ⟨?_, ?_, ?_⟩
  · intro g dt w hw hgo hbw
    constructor
    · intro hpos
      unfold HandleWaveProgression
      rw [hw]
      dsimp only
      rw [if_neg (by rw [hgo]; simp), if_pos hbw, if_neg (not_le.mpr hpos)]
    · intro hneg
      unfold HandleWaveProgression
      rw [hw]
      dsimp only
      rw [if_neg (by rw [hgo]; simp), if_pos hbw, if_pos hneg]
  · intro g dt w hw hgo hbw hexh
    unfold HandleWaveProgression
    rw [hw]
    dsimp only
    rw [if_neg (by rw [hgo]; simp), if_neg (by rw [hbw]; simp), hexh]
    dsimp only
    split
    · exact ⟨rfl, rfl, rfl⟩
    · exact ⟨rfl, rfl, rfl⟩
  · constructor <;> decide!

/-- A Playing state in mid-cooldown with 10 s left. -/
def c8CoolDemo : Game :=
  { initGame with currentState := .PLAYING, isBetweenWaves := true, betweenWavesTimer := 10 }

/-- A Playing state whose wave-1 composition is exhausted. -/
def c8ExhDemo : Game :=
  { initGame with currentState := .PLAYING, currentUnitTypeIndex := 2 }

/-- The first wave of the chain, spelled out. -/
def c8Wave1 : GameWave :=
  { waveNumber := 1, waveUnits := [(.KNIGHT, 2), (.WIZARD, 1)], spawnRate := 4, waveCooldown := 10 }

theorem c8_wave_cooldown_witness :
    HandleWaveProgression 1 c8CoolDemo =
      { c8CoolDemo with betweenWavesTimer := c8CoolDemo.betweenWavesTimer - 1 } ∧
    (HandleWaveProgression 1 c8ExhDemo).isBetweenWaves = true := by
  constructor
  · exact (c8_wave_cooldown.1 c8CoolDemo 1 c8Wave1 (by decide!) (by decide!) (by decide!)).1
      (by decide!)
  · exact (c8_wave_cooldown.2.1 c8ExhDemo 1 c8Wave1 (by decide!) (by decide!) (by decide!)
      (by decide!)).1

/-! ### Claim C9 -/

/-- The claim as stated: after the `reset()` command the simulation state
(every field of the C++ `Game` object; `nextId` is only a modelling artefact)
equals the freshly-constructed state, re-entering Playing — in particular
every wave's `spawnRate` is back at its initial value. -/
def C9Claim : Prop :=
  ∀ g : Game,
    (resetCmd g).currentState = GameState.PLAYING ∧
    (resetCmd g).playerTower = initGame.playerTower ∧
    (resetCmd g).enemyTower = initGame.enemyTower ∧
    (resetCmd g).units = initGame.units ∧
    (resetCmd g).projectiles = initGame.projectiles ∧
    (resetCmd g).freezeAvailable = initGame.freezeAvailable ∧
    (resetCmd g).freezeCooldown = initGame.freezeCooldown ∧
    (resetCmd g).playerElixir = initGame.playerElixir ∧
    (resetCmd g).enemyElixir = initGame.enemyElixir ∧
    (resetCmd g).elixirTimer = initGame.elixirTimer ∧
    (resetCmd g).waves = initGame.waves ∧
    (resetCmd g).currentWaveIdx = initGame.currentWaveIdx ∧
    (resetCmd g).waveSpawnTimer = initGame.waveSpawnTimer ∧
    (resetCmd g).currentUnitTypeIndex = initGame.currentUnitTypeIndex ∧
    (resetCmd g).unitsSpawnedForCurrentType = initGame.unitsSpawnedForCurrentType ∧
    (resetCmd g).isBetweenWaves = initGame.isBetweenWaves ∧
    (resetCmd g).betweenWavesTimer = initGame.betweenWavesTimer ∧
    (resetCmd g).gameTimer = initGame.gameTimer ∧
    (resetCmd g).gameOver = initGame.gameOver ∧
    (resetCmd g).winner = initGame.winner

/-- Counterexample to C9: `Game::Reset` does not touch the wave chain, so
resetting a game whose spawn intervals have been decayed by a full wave cycle
leaves them decayed (wave 1: 3.6 s instead of the initial 4.0 s). -/
theorem c9_counterexample : ¬ C9Claim := by
  intro h
  have := (h { initGame with waves := decayWaves initialWaves }).2.2.2.2.2.2.2.2.2.2.1
  exact absurd this (by decide!)

/-- C9 (amended): after `reset()` every component of the simulation state
equals the freshly-constructed one — units and effects cleared, towers
recreated at full health, elixir/timers/freeze/wave position at their initial
values — and the match re-enters Playing, EXCEPT the wave chain itself, which
is kept as-is: the permanent spawn-interval ratchet survives a reset. -/
theorem c9_reset (g : Game) :
    (resetCmd g).currentState = GameState.PLAYING ∧
    (resetCmd g).playerTower = initGame.playerTower ∧
    (resetCmd g).enemyTower = initGame.enemyTower ∧
    (resetCmd g).units = initGame.units ∧
    (resetCmd g).projectiles = initGame.projectiles ∧
    (resetCmd g).freezeAvailable = initGame.freezeAvailable ∧
    (resetCmd g).freezeCooldown = initGame.freezeCooldown ∧
    (resetCmd g).playerElixir = initGame.playerElixir ∧
    (resetCmd g).enemyElixir = initGame.enemyElixir ∧
    (resetCmd g).elixirTimer = initGame.elixirTimer ∧
    (resetCmd g).waves = g.waves ∧
    (resetCmd g).currentWaveIdx = initGame.currentWaveIdx ∧
    (resetCmd g).waveSpawnTimer = initGame.waveSpawnTimer ∧
    (resetCmd g).currentUnitTypeIndex = initGame.currentUnitTypeIndex ∧
    (resetCmd g).unitsSpawnedForCurrentType = initGame.unitsSpawnedForCurrentType ∧
    (resetCmd g).isBetweenWaves = initGame.isBetweenWaves ∧
    (resetCmd g).betweenWavesTimer = initGame.betweenWavesTimer ∧
    (resetCmd g).gameTimer = initGame.gameTimer ∧
    (resetCmd g).gameOver = initGame.gameOver ∧
    (resetCmd g).winner = initGame.winner :=
  ⟨rfl, rfl, rfl, rfl, rfl, rfl, rfl, rfl, rfl, rfl, rfl, rfl, rfl, rfl, rfl, rfl, rfl,
   rfl, rfl, rfl⟩

end TD

